import Mathlib

/-!
Shallow embedding of the IPv6 neighbor-discovery state engine from
`src/ndisc/nm-ndisc.c` (NetworkManager).  C arrays become Lean lists,
`guint32`/`gint32`/`gint64` become `Nat`/`Int` with explicit `% 2^32`
where the C code truncates, and in-place mutation becomes explicit
state passing.  Every definition is translated from the C source; the
few entities whose definitions live in headers not present in the
repository snapshot (the `NMNDiscConfigMap` bits and the stable-privacy
derivation helper) are modelled from the specification and say so in
their doc comments.
-/

set_option maxRecDepth 4000

/-- Constant `G_MAXUINT32`, the infinite-lifetime sentinel. -/
def G_MAXUINT32 : Nat := 4294967295

/-- Constant `G_MAXINT32`, used as the "never" sentinel for the sweep deadline. -/
def G_MAXINT32 : Nat := 2147483647

/-- A 128-bit IPv6 address, split at the 64-bit boundary exactly as
`complete_address` does (`s6_addr32[2] == 0 && s6_addr32[3] == 0` tests
that `lo = 0`; the interface identifier overlays the low 64 bits). -/
structure In6Addr where
  hi : Nat
  lo : Nat
deriving DecidableEq, Repr

/-- Record `NMNDiscGateway`: address, timestamp, lifetime, router preference.
The preference enum is compared by its integer encoding (low < medium < high). -/
structure NMNDiscGateway where
  address : In6Addr
  timestamp : Nat
  lifetime : Nat
  preference : Nat
deriving DecidableEq, Repr

/-- Record `NMNDiscAddress`: completed or prefix-only address with valid/preferred
lifetimes and the DAD counter. -/
structure NMNDiscAddress where
  address : In6Addr
  timestamp : Nat
  lifetime : Nat
  preferred : Nat
  dad_counter : Nat
deriving DecidableEq, Repr

/-- Record `NMNDiscRoute`: network/plen identity plus gateway, timestamps and preference. -/
structure NMNDiscRoute where
  network : In6Addr
  plen : Nat
  gateway : In6Addr
  timestamp : Nat
  lifetime : Nat
  preference : Nat
deriving DecidableEq, Repr

/-- Record `NMNDiscDNSServer`. -/
structure NMNDiscDNSServer where
  address : In6Addr
  timestamp : Nat
  lifetime : Nat
deriving DecidableEq, Repr

/-- Record `NMNDiscDNSDomain`. -/
structure NMNDiscDNSDomain where
  domain : String
  timestamp : Nat
  lifetime : Nat
deriving DecidableEq, Repr

/-- Helper for `g_array_insert_val`: insert at an index (appending at the end when the
index reaches the length, which is the largest index this code ever passes). -/
def listInsertAt {α : Type} : Nat → α → List α → List α
  | 0, a, l => a :: l
  | _ + 1, a, [] => [a]
  | n + 1, a, x :: l => x :: listInsertAt n a l

/-- Outcome of the identity scan in `nm_ndisc_add_gateway` / `nm_ndisc_add_route`:
either the loop returned early (removed a zero-lifetime match, or overwrote an
equal-preference match in place), or it ran to completion, yielding the list with
any differing-preference identity matches removed together with the recorded
`insert_idx` (`none` encodes the C value `-1`). -/
inductive ScanOutcome (α : Type) where
  | removed (l : List α)
  | overwrote (l : List α)
  | noMatch (l : List α) (insert_idx : Option Nat)
deriving DecidableEq, Repr

/-- The scan loop of `nm_ndisc_add_gateway` (nm-ndisc.c lines 180-201).
`insert_idx` is recorded at the first kept item whose preference is strictly
below the new one; removals of differing-preference identity matches shift
later indices exactly as `g_array_remove_index` with `i--` does in C. -/
def gwScan (new : NMNDiscGateway) : List NMNDiscGateway → ScanOutcome NMNDiscGateway
  | [] => .noMatch [] none
  | item :: rest =>
    if item.address = new.address then
      if new.lifetime = 0 then
        .removed rest
      else if item.preference ≠ new.preference then
        gwScan new rest
      else
        .overwrote (new :: rest)
    else
      match gwScan new rest with
      | .removed l => .removed (item :: l)
      | .overwrote l => .overwrote (item :: l)
      | .noMatch l idx =>
          .noMatch (item :: l)
            (if item.preference < new.preference then some 0 else idx.map (· + 1))

/-- Function `nm_ndisc_add_gateway` (nm-ndisc.c lines 174-206): returns the `changed`
flag and the new gateway array.  A fresh item with non-zero lifetime is
inserted at `MAX (insert_idx, 0)`. -/
def nm_ndisc_add_gateway (new : NMNDiscGateway) (l : List NMNDiscGateway) :
    Bool × List NMNDiscGateway :=
  match gwScan new l with
  | .removed l' => (true, l')
  | .overwrote l' => (false, l')
  | .noMatch l' idx =>
    if new.lifetime ≠ 0 then
      (true, listInsertAt (idx.getD 0) new l')
    else
      (false, l')

/-- The scan loop of `nm_ndisc_add_route` (nm-ndisc.c lines 326-347), identical
to the gateway scan except that identity is `(network, plen)`. -/
def rtScan (new : NMNDiscRoute) : List NMNDiscRoute → ScanOutcome NMNDiscRoute
  | [] => .noMatch [] none
  | item :: rest =>
    if item.network = new.network ∧ item.plen = new.plen then
      if new.lifetime = 0 then
        .removed rest
      else if item.preference ≠ new.preference then
        rtScan new rest
      else
        .overwrote (new :: rest)
    else
      match rtScan new rest with
      | .removed l => .removed (item :: l)
      | .overwrote l => .overwrote (item :: l)
      | .noMatch l idx =>
          .noMatch (item :: l)
            (if item.preference < new.preference then some 0 else idx.map (· + 1))

/-- Function `nm_ndisc_add_route` (nm-ndisc.c lines 305-352).  A `plen` of zero or above
128 hits `g_return_val_if_reached (FALSE)`: the call returns FALSE with the
array untouched.  Insertion uses `CLAMP (insert_idx, 0, G_MAXINT)`, which for
the indices arising here coincides with `MAX (insert_idx, 0)`. -/
def nm_ndisc_add_route (new : NMNDiscRoute) (l : List NMNDiscRoute) :
    Bool × List NMNDiscRoute :=
  if new.plen = 0 ∨ new.plen > 128 then
    (false, l)
  else
    match rtScan new l with
    | .removed l' => (true, l')
    | .overwrote l' => (false, l')
    | .noMatch l' idx =>
      if new.lifetime ≠ 0 then
        (true, listInsertAt (idx.getD 0) new l')
      else
        (false, l')

/-- Function `nm_ndisc_add_dns_server` (nm-ndisc.c lines 354-383): identity is the
address; a zero-lifetime match is removed, a differing timestamp or lifetime
overwrites and reports changed, otherwise unchanged; a fresh item with
non-zero lifetime is appended. -/
def nm_ndisc_add_dns_server (new : NMNDiscDNSServer) :
    List NMNDiscDNSServer → Bool × List NMNDiscDNSServer
  | [] => if new.lifetime ≠ 0 then (true, [new]) else (false, [])
  | item :: rest =>
    if item.address = new.address then
      if new.lifetime = 0 then
        (true, rest)
      else if item.timestamp ≠ new.timestamp ∨ item.lifetime ≠ new.lifetime then
        (true, new :: rest)
      else
        (false, item :: rest)
    else
      let r := nm_ndisc_add_dns_server new rest
      (r.1, item :: r.2)

/-- Function `nm_ndisc_add_dns_domain` (nm-ndisc.c lines 386-424): identity is the
domain string; on a match only `timestamp` and `lifetime` are refreshed (the
stored string is retained). -/
def nm_ndisc_add_dns_domain (new : NMNDiscDNSDomain) :
    List NMNDiscDNSDomain → Bool × List NMNDiscDNSDomain
  | [] => if new.lifetime ≠ 0 then (true, [new]) else (false, [])
  | item :: rest =>
    if item.domain = new.domain then
      if new.lifetime = 0 then
        (true, rest)
      else if item.timestamp ≠ new.timestamp ∨ item.lifetime ≠ new.lifetime then
        (true, { item with timestamp := new.timestamp, lifetime := new.lifetime } :: rest)
      else
        (false, item :: rest)
    else
      let r := nm_ndisc_add_dns_domain new rest
      (r.1, item :: r.2)

/-- Enum `NMSettingIP6ConfigAddrGenMode` (only the two values the engine uses). -/
inductive AddrGenMode where
  | eui64
  | stablePrivacy
deriving DecidableEq, Repr

/-- Modelled from the spec: `nm_utils_ipv6_addr_set_stable_privacy` (declared
in nm-utils.h, implementation not in this snapshot) derives the 64 low bits
of a stable-privacy address from the stable inputs and the DAD counter, and
"fails only if the derivation function fails (e.g., counter overflow)".  We
abstract it as a function from the DAD counter to an optional 64-bit identifier
(the fixed stable inputs are folded into the function); on failure it writes
nothing. -/
def StablePrivacyDerive : Type := Nat → Option Nat

/-- Function `complete_address` (nm-ndisc.c lines 222-260), returning the C boolean and
the address record after the call (the C function mutates `addr` in place).
Note the argument `addr->dad_counter++`: in stable-privacy mode the counter is
post-incremented before the derivation's outcome is known, so it advances even
when the derivation fails.  In EUI-64 mode the identifier is overlaid only when
the low 64 bits are all zero and an IID (non-zero `iid.id`) is set. -/
def complete_address (mode : AddrGenMode) (derive : StablePrivacyDerive) (iid : Nat)
    (addr : NMNDiscAddress) : Bool × NMNDiscAddress :=
  match mode with
  | .stablePrivacy =>
    let bumped : NMNDiscAddress := { addr with dad_counter := addr.dad_counter + 1 }
    match derive addr.dad_counter with
    | some ident =>
        (true, { bumped with address := { bumped.address with lo := ident % 2 ^ 64 } })
    | none => (false, bumped)
  | .eui64 =>
    if iid = 0 then
      (false, addr)
    else if addr.address.lo = 0 then
      (true, { addr with address := { addr.address with lo := iid % 2 ^ 64 } })
    else
      (false, addr)

/-- The identity-scan-and-insert part of `nm_ndisc_complete_and_add_address`
(nm-ndisc.c lines 275-302), run on the already-completed address.  `lenAll`
is the length of the whole array, which is what the `max_addresses` cap is
checked against after a scan that found no match (the scan never removes
before that check). -/
def addrScan (max_addresses : Nat) (lenAll : Nat) (new : NMNDiscAddress) :
    List NMNDiscAddress → Bool × List NMNDiscAddress
  | [] =>
    if max_addresses ≠ 0 ∧ lenAll ≥ max_addresses then
      (false, [])
    else if new.lifetime ≠ 0 then
      (true, [new])
    else
      (false, [])
  | item :: rest =>
    if item.address = new.address then
      if new.lifetime = 0 then
        (true, rest)
      else
        let changed :=
          (item.timestamp + item.lifetime) % 2 ^ 32 ≠ (new.timestamp + new.lifetime) % 2 ^ 32 ∨
          (item.timestamp + item.preferred) % 2 ^ 32 ≠ (new.timestamp + new.preferred) % 2 ^ 32
        (changed, new :: rest)
    else
      let r := addrScan max_addresses lenAll new rest
      (r.1, item :: r.2)

/-- Function `nm_ndisc_complete_and_add_address` (nm-ndisc.c lines 262-303): complete
the address first and abort (array untouched) if completion fails; otherwise
scan by completed address, with the `max_addresses` cap applied to fresh
insertions. -/
def nm_ndisc_complete_and_add_address (mode : AddrGenMode) (derive : StablePrivacyDerive)
    (iid : Nat) (max_addresses : Nat) (new : NMNDiscAddress)
    (l : List NMNDiscAddress) : Bool × List NMNDiscAddress :=
  match complete_address mode derive iid new with
  | (false, _) => (false, l)
  | (true, completed) => addrScan max_addresses l.length completed l

/-- Modelled from the spec: the `NMNDiscConfigMap` change-mask bits (declared
in nm-ndisc.h, not in this snapshot); a flag set over DHCP level and the five
collections, one bit each in the order logged by `config_map_to_string`. -/
def NM_NDISC_CONFIG_DHCP_LEVEL : Nat := 1

/-- Modelled from the spec: change-mask bit for gateways. -/
def NM_NDISC_CONFIG_GATEWAYS : Nat := 2

/-- Modelled from the spec: change-mask bit for addresses. -/
def NM_NDISC_CONFIG_ADDRESSES : Nat := 4

/-- Modelled from the spec: change-mask bit for routes. -/
def NM_NDISC_CONFIG_ROUTES : Nat := 8

/-- Modelled from the spec: change-mask bit for DNS servers. -/
def NM_NDISC_CONFIG_DNS_SERVERS : Nat := 16

/-- Modelled from the spec: change-mask bit for DNS domains. -/
def NM_NDISC_CONFIG_DNS_DOMAINS : Nat := 32

/-- Record `NMNDiscDataInternal`: the five learned-item collections. -/
structure NMNDiscDataInternal where
  gateways : List NMNDiscGateway
  addresses : List NMNDiscAddress
  routes : List NMNDiscRoute
  dns_servers : List NMNDiscDNSServer
  dns_domains : List NMNDiscDNSDomain
deriving DecidableEq, Repr

/-- The immutable configuration fields of `NMNDiscPrivate`. -/
structure NMNDiscConfig where
  addr_gen_mode : AddrGenMode
  max_addresses : Nat
  router_solicitations : Int
  router_solicitation_interval : Int
deriving DecidableEq, Repr

/-- The mutable fields of `NMNDiscPrivate` that the pacer and facade touch.
A GLib timer id slot is modelled as `Option Int` holding the armed delay in
seconds (`none` = slot is 0 / cleared). -/
structure NMNDiscPrivate where
  rdata : NMNDiscDataInternal
  solicitations_left : Int
  send_rs_id : Option Int
  last_rs : Int
  ra_timeout_id : Option Int
  timeout_id : Option Int
  last_send_rs_error : Option String
  iid : Nat
deriving DecidableEq, Repr

/-- Events the engine emits to its consumers. -/
inductive NDiscEvent where
  | config_changed (mask : Nat)
  | ra_timeout
deriving DecidableEq, Repr

/-- Function `solicit` (nm-ndisc.c lines 472-490): a no-op while a send timer is
pending; otherwise resets `solicitations_left` to `router_solicitations`
and arms the send timer after
`CLAMP (last_rs + router_solicitation_interval - now, 0, G_MAXINT32)` seconds. -/
def solicit (cfg : NMNDiscConfig) (now : Int) (st : NMNDiscPrivate) : NMNDiscPrivate :=
  if st.send_rs_id.isSome then
    st
  else
    let next0 : Int := st.last_rs + cfg.router_solicitation_interval - now
    let next : Int := if next0 > 2147483647 then 2147483647 else if next0 < 0 then 0 else next0
    { st with solicitations_left := cfg.router_solicitations, send_rs_id := some next }

/-- Function `send_rs_timeout` (nm-ndisc.c lines 428-470): clear the timer slot, abort
on netns-push failure, invoke the transport's `send_rs` (its outcome is
`none` for success, `some msg` for failure with that error message), decrement
`solicitations_left` only on success, debounce the error message, stamp
`last_rs`, and re-arm after `router_solicitation_interval` seconds while
solicitations remain. -/
def send_rs_timeout (cfg : NMNDiscConfig) (netns_ok : Bool) (outcome : Option String)
    (now : Int) (st : NMNDiscPrivate) : NMNDiscPrivate :=
  let st := { st with send_rs_id := none }
  if !netns_ok then
    st
  else
    let st :=
      match outcome with
      | none =>
        { st with solicitations_left := st.solicitations_left - 1,
                  last_send_rs_error := none }
      | some msg =>
        if st.last_send_rs_error ≠ some msg then
          { st with last_send_rs_error := some msg }
        else
          st
    let st := { st with last_rs := now }
    if st.solicitations_left > 0 then
      { st with send_rs_id := some cfg.router_solicitation_interval }
    else
      st

/-- Drive one RS burst: each list element is one send-tick outcome (`true` =
`send_rs` succeeded, `false` = it failed), delivered only while the send timer
is armed; counts how many times the transport's `send_rs` is invoked. -/
def burstSendCount (cfg : NMNDiscConfig) (st : NMNDiscPrivate) :
    List Bool → Nat
  | [] => 0
  | o :: os =>
    if st.send_rs_id.isSome then
      1 + burstSendCount cfg (send_rs_timeout cfg true (if o then none else some "fail") 0 st) os
    else
      0

/-- Like `burstSendCount` but counts only the successful `send_rs` invocations. -/
def burstSuccessCount (cfg : NMNDiscConfig) (st : NMNDiscPrivate) :
    List Bool → Nat
  | [] => 0
  | o :: os =>
    if st.send_rs_id.isSome then
      (if o then 1 else 0) +
        burstSuccessCount cfg (send_rs_timeout cfg true (if o then none else some "fail") 0 st) os
    else
      0

/-- Function `nm_ndisc_set_iid` (nm-ndisc.c lines 513-540): returns the C boolean
("regenerate"), the state after the call, and the events emitted during it. -/
def nm_ndisc_set_iid (cfg : NMNDiscConfig) (now : Int) (st : NMNDiscPrivate) (iid : Nat) :
    Bool × NMNDiscPrivate × List NDiscEvent :=
  if st.iid ≠ iid then
    let st := { st with iid := iid }
    if cfg.addr_gen_mode = .stablePrivacy then
      (false, st, [])
    else if st.rdata.addresses.length ≠ 0 then
      let st := { st with rdata := { st.rdata with addresses := [] } }
      let st := solicit cfg now st
      (true, st, [.config_changed NM_NDISC_CONFIG_ADDRESSES])
    else
      (true, st, [])
  else
    (false, st, [])

/-- Function `ndisc_ra_timeout_cb` (nm-ndisc.c lines 542-550): clear the first-RA timer
slot and emit the `ra_timeout` signal. -/
def ndisc_ra_timeout_cb (st : NMNDiscPrivate) : NMNDiscPrivate × List NDiscEvent :=
  ({ st with ra_timeout_id := none }, [.ra_timeout])

/-- Function `nm_ndisc_start` (nm-ndisc.c lines 552-576), with the netns push assumed
to succeed and the transport's `start` hook having no effect on this state.
A second start hits `g_return_if_fail (!priv->ra_timeout_id)` and does
nothing.  The first-RA delay is
`CLAMP ((gint64) router_solicitations * router_solicitation_interval + 1, 30, 120)`. -/
def nm_ndisc_start (cfg : NMNDiscConfig) (now : Int) (st : NMNDiscPrivate) : NMNDiscPrivate :=
  if st.ra_timeout_id.isSome then
    st
  else
    let w0 : Int := cfg.router_solicitations * cfg.router_solicitation_interval + 1
    let w : Int := if w0 > 120 then 120 else if w0 < 30 then 30 else w0
    let st := { st with ra_timeout_id := some w }
    solicit cfg now st

/-- Function `clean_gateways` (nm-ndisc.c lines 691-712): drop expired items (their
64-bit `timestamp + lifetime` is at or before `now`), skip infinite lifetimes,
and fold each surviving finite expiry into `nextevent` (the guint32 assignment
truncates the 64-bit expiry, hence the `% 2 ^ 32`).  Returns the kept list,
whether anything was removed (the `GATEWAYS` bit), and the updated `nextevent`. -/
def clean_gateways (now : Nat) : List NMNDiscGateway → Nat → List NMNDiscGateway × Bool × Nat
  | [], ne => ([], false, ne)
  | item :: rest, ne =>
    if item.lifetime = G_MAXUINT32 then
      let r := clean_gateways now rest ne
      (item :: r.1, r.2.1, r.2.2)
    else
      let expiry := item.timestamp + item.lifetime
      if now ≥ expiry then
        let r := clean_gateways now rest ne
        (r.1, true, r.2.2)
      else
        let r := clean_gateways now rest (if ne > expiry then expiry % 2 ^ 32 else ne)
        (item :: r.1, r.2.1, r.2.2)

/-- Function `clean_addresses` (nm-ndisc.c lines 714-735), same shape as `clean_gateways`. -/
def clean_addresses (now : Nat) : List NMNDiscAddress → Nat → List NMNDiscAddress × Bool × Nat
  | [], ne => ([], false, ne)
  | item :: rest, ne =>
    if item.lifetime = G_MAXUINT32 then
      let r := clean_addresses now rest ne
      (item :: r.1, r.2.1, r.2.2)
    else
      let expiry := item.timestamp + item.lifetime
      if now ≥ expiry then
        let r := clean_addresses now rest ne
        (r.1, true, r.2.2)
      else
        let r := clean_addresses now rest (if ne > expiry then expiry % 2 ^ 32 else ne)
        (item :: r.1, r.2.1, r.2.2)

/-- Function `clean_routes` (nm-ndisc.c lines 737-758), same shape as `clean_gateways`. -/
def clean_routes (now : Nat) : List NMNDiscRoute → Nat → List NMNDiscRoute × Bool × Nat
  | [], ne => ([], false, ne)
  | item :: rest, ne =>
    if item.lifetime = G_MAXUINT32 then
      let r := clean_routes now rest ne
      (item :: r.1, r.2.1, r.2.2)
    else
      let expiry := item.timestamp + item.lifetime
      if now ≥ expiry then
        let r := clean_routes now rest ne
        (r.1, true, r.2.2)
      else
        let r := clean_routes now rest (if ne > expiry then expiry % 2 ^ 32 else ne)
        (item :: r.1, r.2.1, r.2.2)

/-- Function `clean_dns_servers` (nm-ndisc.c lines 760-784): like the other cleans but
an item past the half-lifetime point (`refresh`) triggers a solicitation
instead of folding a deadline; otherwise the refresh midpoint is the deadline
folded into `nextevent`.  The last component counts the `solicit` calls. -/
def clean_dns_servers (now : Nat) :
    List NMNDiscDNSServer → Nat → List NMNDiscDNSServer × Bool × Nat × Nat
  | [], ne => ([], false, ne, 0)
  | item :: rest, ne =>
    if item.lifetime = G_MAXUINT32 then
      let r := clean_dns_servers now rest ne
      (item :: r.1, r.2.1, r.2.2.1, r.2.2.2)
    else
      let expiry := item.timestamp + item.lifetime
      let refresh := item.timestamp + item.lifetime / 2
      if now ≥ expiry then
        let r := clean_dns_servers now rest ne
        (r.1, true, r.2.2.1, r.2.2.2)
      else if now ≥ refresh then
        let r := clean_dns_servers now rest ne
        (item :: r.1, r.2.1, r.2.2.1, r.2.2.2 + 1)
      else
        let r := clean_dns_servers now rest (if ne > refresh then refresh % 2 ^ 32 else ne)
        (item :: r.1, r.2.1, r.2.2.1, r.2.2.2)

/-- Function `clean_dns_domains` (nm-ndisc.c lines 786-810), same shape as
`clean_dns_servers`. -/
def clean_dns_domains (now : Nat) :
    List NMNDiscDNSDomain → Nat → List NMNDiscDNSDomain × Bool × Nat × Nat
  | [], ne => ([], false, ne, 0)
  | item :: rest, ne =>
    if item.lifetime = G_MAXUINT32 then
      let r := clean_dns_domains now rest ne
      (item :: r.1, r.2.1, r.2.2.1, r.2.2.2)
    else
      let expiry := item.timestamp + item.lifetime
      let refresh := item.timestamp + item.lifetime / 2
      if now ≥ expiry then
        let r := clean_dns_domains now rest ne
        (r.1, true, r.2.2.1, r.2.2.2)
      else if now ≥ refresh then
        let r := clean_dns_domains now rest ne
        (item :: r.1, r.2.1, r.2.2.1, r.2.2.2 + 1)
      else
        let r := clean_dns_domains now rest (if ne > refresh then refresh % 2 ^ 32 else ne)
        (item :: r.1, r.2.1, r.2.2.1, r.2.2.2)

/-- Function `check_timestamps` (nm-ndisc.c lines 814-839) restricted to its data
sweep: run the five clean passes threading the change mask and `nextevent`
(seeded with the `never` sentinel `G_MAXINT32`), and emit a `config_changed`
event when the mask is non-empty.  Returns the swept collections, the final
mask, the final `nextevent`, the number of `solicit` calls made by the DNS
cleans, and the emitted events.  The re-arm of the sweep timer is guarded by
`g_return_if_fail (nextevent > now)`. -/
def check_timestamps (now : Nat) (changed0 : Nat) (rd : NMNDiscDataInternal) :
    NMNDiscDataInternal × Nat × Nat × Nat × List NDiscEvent :=
  let g := clean_gateways now rd.gateways G_MAXINT32
  let a := clean_addresses now rd.addresses g.2.2
  let r := clean_routes now rd.routes a.2.2
  let s := clean_dns_servers now rd.dns_servers r.2.2
  let d := clean_dns_domains now rd.dns_domains s.2.2.1
  let changed := changed0 |||
    (if g.2.1 then NM_NDISC_CONFIG_GATEWAYS else 0) |||
    (if a.2.1 then NM_NDISC_CONFIG_ADDRESSES else 0) |||
    (if r.2.1 then NM_NDISC_CONFIG_ROUTES else 0) |||
    (if s.2.1 then NM_NDISC_CONFIG_DNS_SERVERS else 0) |||
    (if d.2.1 then NM_NDISC_CONFIG_DNS_DOMAINS else 0)
  let rd' : NMNDiscDataInternal :=
    { gateways := g.1, addresses := a.1, routes := r.1,
      dns_servers := s.1, dns_domains := d.1 }
  (rd', changed, d.2.2.1, s.2.2.2 + d.2.2.2,
   if changed ≠ 0 then [.config_changed changed] else [])

/-- The list carried by a scan outcome. -/
def scanList {α : Type} : ScanOutcome α → List α
  | .removed l => l
  | .overwrote l => l
  | .noMatch l _ => l

/-- Index of the first list element satisfying `p` (`none` if there is none);
this is the value `insert_idx` holds at the end of a scan that removed no
identity matches. -/
def firstIdxWhere {α : Type} (p : α → Bool) : List α → Option Nat
  | [] => none
  | x :: l => if p x then some 0 else (firstIdxWhere p l).map (· + 1)

/-- The preference-order invariant claimed for the gateway collection:
non-increasing preference from head to tail. -/
def gwPrefOrdered (l : List NMNDiscGateway) : Prop :=
  l.Pairwise (fun a b => a.preference ≥ b.preference)

/-- One call to one of the five add helpers, as fed by the transport. -/
inductive AddReq where
  | gw (g : NMNDiscGateway)
  | addr (a : NMNDiscAddress)
  | rt (r : NMNDiscRoute)
  | dns (s : NMNDiscDNSServer)
  | dom (d : NMNDiscDNSDomain)
deriving Repr

/-- The empty collections `nm_ndisc_init` starts from. -/
def emptyRData : NMNDiscDataInternal :=
  { gateways := [], addresses := [], routes := [], dns_servers := [], dns_domains := [] }

/-- Apply one add helper to the collections (discarding the changed flag). -/
def applyAdd (mode : AddrGenMode) (derive : StablePrivacyDerive) (iid : Nat)
    (max_addresses : Nat) (rd : NMNDiscDataInternal) : AddReq → NMNDiscDataInternal
  | .gw g => { rd with gateways := (nm_ndisc_add_gateway g rd.gateways).2 }
  | .addr a =>
    { rd with addresses :=
        (nm_ndisc_complete_and_add_address mode derive iid max_addresses a rd.addresses).2 }
  | .rt r => { rd with routes := (nm_ndisc_add_route r rd.routes).2 }
  | .dns s => { rd with dns_servers := (nm_ndisc_add_dns_server s rd.dns_servers).2 }
  | .dom d => { rd with dns_domains := (nm_ndisc_add_dns_domain d rd.dns_domains).2 }

/-- Apply a whole sequence of add calls starting from given collections. -/
def applyAdds (mode : AddrGenMode) (derive : StablePrivacyDerive) (iid : Nat)
    (max_addresses : Nat) (reqs : List AddReq) (rd : NMNDiscDataInternal) :
    NMNDiscDataInternal :=
  reqs.foldl (applyAdd mode derive iid max_addresses) rd

/-- Every stored item in every collection has a non-zero lifetime. -/
def rdataLifetimesPos (rd : NMNDiscDataInternal) : Prop :=
  (∀ g ∈ rd.gateways, g.lifetime ≠ 0) ∧
  (∀ a ∈ rd.addresses, a.lifetime ≠ 0) ∧
  (∀ r ∈ rd.routes, r.lifetime ≠ 0) ∧
  (∀ s ∈ rd.dns_servers, s.lifetime ≠ 0) ∧
  (∀ d ∈ rd.dns_domains, d.lifetime ≠ 0)

theorem gwScan_noMatch (new : NMNDiscGateway) :
    ∀ l : List NMNDiscGateway, (∀ g ∈ l, g.address ≠ new.address) →
    gwScan new l = .noMatch l (firstIdxWhere (fun g => decide (g.preference < new.preference)) l)
  | [], _ => rfl
  | item :: rest, h => by
    have hi : item.address ≠ new.address := h item (.head rest)
    have ih := gwScan_noMatch new rest (fun g hg => h g (.tail _ hg))
    simp only [gwScan, if_neg hi, ih, firstIdxWhere]
    by_cases hp : item.preference < new.preference <;> simp [hp]

theorem add_gateway_noMatch (new : NMNDiscGateway) (l : List NMNDiscGateway)
    (h : ∀ g ∈ l, g.address ≠ new.address) (hlt : new.lifetime ≠ 0) :
    nm_ndisc_add_gateway new l =
      (true, listInsertAt
        ((firstIdxWhere (fun g => decide (g.preference < new.preference)) l).getD 0) new l) := by
  simp [nm_ndisc_add_gateway, gwScan_noMatch new l h, hlt]

theorem rtScan_noMatch (new : NMNDiscRoute) :
    ∀ l : List NMNDiscRoute, (∀ r ∈ l, ¬(r.network = new.network ∧ r.plen = new.plen)) →
    rtScan new l = .noMatch l (firstIdxWhere (fun r => decide (r.preference < new.preference)) l)
  | [], _ => rfl
  | item :: rest, h => by
    have hi := h item (.head rest)
    have ih := rtScan_noMatch new rest (fun r hr => h r (.tail _ hr))
    simp only [rtScan, if_neg hi, ih, firstIdxWhere]
    by_cases hp : item.preference < new.preference <;> simp [hp]

theorem add_route_noMatch (new : NMNDiscRoute) (l : List NMNDiscRoute)
    (h : ∀ r ∈ l, ¬(r.network = new.network ∧ r.plen = new.plen)) (hlt : new.lifetime ≠ 0)
    (hplen : 1 ≤ new.plen ∧ new.plen ≤ 128) :
    nm_ndisc_add_route new l =
      (true, listInsertAt
        ((firstIdxWhere (fun r => decide (r.preference < new.preference)) l).getD 0) new l) := by
  have hg : ¬(new.plen = 0 ∨ new.plen > 128) := by omega
  simp [nm_ndisc_add_route, hg, rtScan_noMatch new l h, hlt]

/-- C1 counterexample: starting from the empty gateway collection, adding a
high-preference gateway and then a different, low-preference gateway leaves
the collection in increasing (not non-increasing) preference order, because
`nm_ndisc_add_gateway` inserts at `MAX (insert_idx, 0) = 0` when no stored
item has strictly lower preference than the new one. -/
theorem C1_counterexample :
    ¬ gwPrefOrdered
      (nm_ndisc_add_gateway ⟨⟨2, 2⟩, 0, 100, 1⟩
        (nm_ndisc_add_gateway ⟨⟨1, 1⟩, 0, 100, 3⟩ []).2).2 := by
  unfold gwPrefOrdered
  decide

/-- C1 (amended): when `nm_ndisc_add_gateway` / `nm_ndisc_add_route` insert a
fresh item (no identity match, non-zero lifetime), the item is placed at the
index of the first stored item with strictly lower preference, or at the head
(index 0) when no such item exists; the non-increasing-preference invariant is
therefore preserved only when such an item exists, and fails otherwise. -/
theorem C1_insert_position (gnew : NMNDiscGateway) (lg : List NMNDiscGateway)
    (hg : ∀ g ∈ lg, g.address ≠ gnew.address) (hglt : gnew.lifetime ≠ 0)
    (rnew : NMNDiscRoute) (lr : List NMNDiscRoute)
    (hr : ∀ r ∈ lr, ¬(r.network = rnew.network ∧ r.plen = rnew.plen))
    (hrlt : rnew.lifetime ≠ 0) (hplen : 1 ≤ rnew.plen ∧ rnew.plen ≤ 128) :
    nm_ndisc_add_gateway gnew lg =
      (true, listInsertAt
        ((firstIdxWhere (fun g => decide (g.preference < gnew.preference)) lg).getD 0) gnew lg) ∧
    nm_ndisc_add_route rnew lr =
      (true, listInsertAt
        ((firstIdxWhere (fun r => decide (r.preference < rnew.preference)) lr).getD 0) rnew lr) :=
  ⟨add_gateway_noMatch gnew lg hg hglt, add_route_noMatch rnew lr hr hrlt hplen⟩

/-- C1 witness: the insertion-position characterisation evaluated on a
concrete one-element gateway collection. -/
theorem C1_witness :
    (∀ g ∈ [(⟨⟨1, 1⟩, 0, 100, 3⟩ : NMNDiscGateway)], g.address ≠ (⟨⟨2, 2⟩, 5, 50, 1⟩ : NMNDiscGateway).address) ∧
    nm_ndisc_add_gateway ⟨⟨2, 2⟩, 5, 50, 1⟩ [⟨⟨1, 1⟩, 0, 100, 3⟩] =
      (true, [⟨⟨2, 2⟩, 5, 50, 1⟩, ⟨⟨1, 1⟩, 0, 100, 3⟩]) := by
  refine ⟨by decide, ?_⟩
  have h := (C1_insert_position ⟨⟨2, 2⟩, 5, 50, 1⟩ [⟨⟨1, 1⟩, 0, 100, 3⟩] (by decide) (by decide)
    ⟨⟨3, 3⟩, 64, ⟨4, 4⟩, 0, 100, 2⟩ [] (by decide) (by decide) (by decide)).1
  simpa using h

theorem gwScan_overwrite (new : NMNDiscGateway) (x : NMNDiscGateway)
    (hx : x.address = new.address) (hp : x.preference = new.preference) (hlt : new.lifetime ≠ 0) :
    ∀ (a : List NMNDiscGateway), (∀ g ∈ a, g.address ≠ new.address) → ∀ b,
    gwScan new (a ++ x :: b) = .overwrote (a ++ new :: b)
  | [], _, b => by simp [gwScan, hx, hlt, hp]
  | g :: a', h, b => by
    have hg := h g (.head a')
    have ih := gwScan_overwrite new x hx hp hlt a' (fun y hy => h y (.tail _ hy)) b
    simp [gwScan, if_neg hg, ih]

/-- C8: when `nm_ndisc_add_gateway` finds an identity match with equal
preference and the new lifetime is non-zero, it overwrites all fields of the
stored item in place with the new item and returns unchanged (`false`), even
when the timestamp or lifetime differ. -/
theorem C8_overwrite_in_place (new : NMNDiscGateway) (a b : List NMNDiscGateway) (x : NMNDiscGateway)
    (ha : ∀ g ∈ a, g.address ≠ new.address) (hx : x.address = new.address)
    (hp : x.preference = new.preference) (hlt : new.lifetime ≠ 0) :
    nm_ndisc_add_gateway new (a ++ x :: b) = (false, a ++ new :: b) := by
  rw [nm_ndisc_add_gateway, gwScan_overwrite new x hx hp hlt a ha b]

theorem gwScan_zero (new : NMNDiscGateway) (h : new.lifetime = 0) :
    ∀ l : List NMNDiscGateway,
    gwScan new l = if l.any (fun g => decide (g.address = new.address))
      then .removed (l.eraseP (fun g => decide (g.address = new.address)))
      else .noMatch l (firstIdxWhere (fun g => decide (g.preference < new.preference)) l)
  | [] => by simp [gwScan, firstIdxWhere]
  | item :: rest => by
    have ih := gwScan_zero new h rest
    by_cases hm : item.address = new.address
    · simp [gwScan, hm, h, List.eraseP_cons]
    · by_cases ha : rest.any (fun g => decide (g.address = new.address)) <;>
        simp [gwScan, hm, ih, ha, List.eraseP_cons, firstIdxWhere]

theorem add_gateway_zero (new : NMNDiscGateway) (h : new.lifetime = 0)
    (l : List NMNDiscGateway) :
    nm_ndisc_add_gateway new l =
      (l.any (fun g => decide (g.address = new.address)),
       l.eraseP (fun g => decide (g.address = new.address))) := by
  rw [nm_ndisc_add_gateway, gwScan_zero new h l]
  by_cases ha : l.any (fun g => decide (g.address = new.address))
  · simp [ha]
  · have : l.eraseP (fun g => decide (g.address = new.address)) = l :=
      List.eraseP_of_forall_not (by simpa [List.any_eq_true] using ha)
    simp [ha, h, this]

theorem rtScan_zero (new : NMNDiscRoute) (h : new.lifetime = 0) :
    ∀ l : List NMNDiscRoute,
    rtScan new l = if l.any (fun r => decide (r.network = new.network) && decide (r.plen = new.plen))
      then .removed (l.eraseP (fun r => decide (r.network = new.network) && decide (r.plen = new.plen)))
      else .noMatch l (firstIdxWhere (fun r => decide (r.preference < new.preference)) l)
  | [] => by simp [rtScan, firstIdxWhere]
  | item :: rest => by
    have ih := rtScan_zero new h rest
    by_cases hm : item.network = new.network ∧ item.plen = new.plen
    · simp [rtScan, hm, h, List.eraseP_cons, hm.1, hm.2]
    · have hb : (decide (item.network = new.network) && decide (item.plen = new.plen)) = false := by
        simpa [Bool.and_eq_true, decide_eq_true_eq] using hm
      by_cases ha : rest.any (fun r => decide (r.network = new.network) && decide (r.plen = new.plen)) <;>
        simp [rtScan, if_neg hm, ih, ha, hb, List.eraseP_cons, firstIdxWhere]

theorem add_route_zero (new : NMNDiscRoute) (h : new.lifetime = 0)
    (hplen : 1 ≤ new.plen ∧ new.plen ≤ 128) (l : List NMNDiscRoute) :
    nm_ndisc_add_route new l =
      (l.any (fun r => decide (r.network = new.network) && decide (r.plen = new.plen)),
       l.eraseP (fun r => decide (r.network = new.network) && decide (r.plen = new.plen))) := by
  have hg : ¬(new.plen = 0 ∨ new.plen > 128) := by omega
  rw [nm_ndisc_add_route, if_neg hg, rtScan_zero new h l]
  by_cases ha : l.any (fun r => decide (r.network = new.network) && decide (r.plen = new.plen))
  · simp [ha]
  · have he : l.eraseP (fun r => decide (r.network = new.network) && decide (r.plen = new.plen)) = l :=
      List.eraseP_of_forall_not (by
        intro a hal
        have := List.any_eq_true.not.mp ha
        push_neg at this
        simpa using this a hal)
    simp [ha, h, he]

theorem add_dns_server_zero (new : NMNDiscDNSServer) (h : new.lifetime = 0) :
    ∀ l : List NMNDiscDNSServer,
    nm_ndisc_add_dns_server new l =
      (l.any (fun s => decide (s.address = new.address)),
       l.eraseP (fun s => decide (s.address = new.address)))
  | [] => by simp [nm_ndisc_add_dns_server, h]
  | item :: rest => by
    have ih := add_dns_server_zero new h rest
    by_cases hm : item.address = new.address
    · simp [nm_ndisc_add_dns_server, hm, h, List.eraseP_cons]
    · simp [nm_ndisc_add_dns_server, hm, ih, List.eraseP_cons]

theorem add_dns_domain_zero (new : NMNDiscDNSDomain) (h : new.lifetime = 0) :
    ∀ l : List NMNDiscDNSDomain,
    nm_ndisc_add_dns_domain new l =
      (l.any (fun d => decide (d.domain = new.domain)),
       l.eraseP (fun d => decide (d.domain = new.domain)))
  | [] => by simp [nm_ndisc_add_dns_domain, h]
  | item :: rest => by
    have ih := add_dns_domain_zero new h rest
    by_cases hm : item.domain = new.domain
    · simp [nm_ndisc_add_dns_domain, hm, h, List.eraseP_cons]
    · simp [nm_ndisc_add_dns_domain, hm, ih, List.eraseP_cons]

theorem addrScan_zero (max_addresses lenAll : Nat) (new : NMNDiscAddress)
    (h : new.lifetime = 0) :
    ∀ l : List NMNDiscAddress,
    addrScan max_addresses lenAll new l =
      (l.any (fun a => decide (a.address = new.address)),
       l.eraseP (fun a => decide (a.address = new.address)))
  | [] => by
    by_cases hc : max_addresses ≠ 0 ∧ lenAll ≥ max_addresses <;> simp [addrScan, h, hc]
  | item :: rest => by
    have ih := addrScan_zero max_addresses lenAll new h rest
    by_cases hm : item.address = new.address
    · simp [addrScan, hm, h, List.eraseP_cons]
    · simp [addrScan, hm, ih, List.eraseP_cons]

theorem listInsertAt_mem {α : Type} (a g : α) :
    ∀ (n : Nat) (l : List α), g ∈ listInsertAt n a l → g = a ∨ g ∈ l
  | 0, l, h => List.mem_cons.mp (by simpa [listInsertAt] using h)
  | _ + 1, [], h => Or.inl (by simpa [listInsertAt] using h)
  | n + 1, x :: l, h => by
    rcases List.mem_cons.mp (by simpa [listInsertAt] using h) with h' | h'
    · exact Or.inr (h' ▸ List.mem_cons_self x l)
    · rcases listInsertAt_mem a g n l h' with h'' | h''
      · exact Or.inl h''
      · exact Or.inr (List.mem_cons_of_mem x h'')

theorem gwScan_mem (new : NMNDiscGateway) :
    ∀ (l : List NMNDiscGateway) (g : NMNDiscGateway), g ∈ scanList (gwScan new l) →
      g ∈ l ∨ (g = new ∧ new.lifetime ≠ 0)
  | [], g, h => by simp [gwScan, scanList] at h
  | item :: rest, g, h => by
    by_cases hm : item.address = new.address
    · by_cases hz : new.lifetime = 0
      · simp only [gwScan, if_pos hm, if_pos hz, scanList] at h
        exact Or.inl (List.mem_cons_of_mem item h)
      · by_cases hp : item.preference ≠ new.preference
        · rcases gwScan_mem new rest g (by simpa [gwScan, if_pos hm, if_neg hz, if_pos hp] using h)
            with h' | h'
          · exact Or.inl (List.mem_cons_of_mem item h')
          · exact Or.inr h'
        · simp only [gwScan, if_pos hm, if_neg hz, if_neg hp, scanList] at h
          rcases List.mem_cons.mp h with h' | h'
          · exact Or.inr ⟨h', hz⟩
          · exact Or.inl (List.mem_cons_of_mem item h')
    · have step : g = item ∨ g ∈ scanList (gwScan new rest) := by
        cases hsc : gwScan new rest with
        | removed l₂ =>
          simp only [gwScan, if_neg hm, hsc, scanList] at h
          simpa [scanList] using h
        | overwrote l₂ =>
          simp only [gwScan, if_neg hm, hsc, scanList] at h
          simpa [scanList] using h
        | noMatch l₂ idx =>
          simp only [gwScan, if_neg hm, hsc, scanList] at h
          simpa [scanList] using h
      rcases step with h' | h'
      · exact Or.inl (h' ▸ List.mem_cons_self item rest)
      · rcases gwScan_mem new rest g h' with h'' | h''
        · exact Or.inl (List.mem_cons_of_mem item h'')
        · exact Or.inr h''

theorem rtScan_mem (new : NMNDiscRoute) :
    ∀ (l : List NMNDiscRoute) (r : NMNDiscRoute), r ∈ scanList (rtScan new l) →
      r ∈ l ∨ (r = new ∧ new.lifetime ≠ 0)
  | [], r, h => by simp [rtScan, scanList] at h
  | item :: rest, r, h => by
    by_cases hm : item.network = new.network ∧ item.plen = new.plen
    · by_cases hz : new.lifetime = 0
      · simp only [rtScan, if_pos hm, if_pos hz, scanList] at h
        exact Or.inl (List.mem_cons_of_mem item h)
      · by_cases hp : item.preference ≠ new.preference
        · rcases rtScan_mem new rest r (by simpa [rtScan, if_pos hm, if_neg hz, if_pos hp] using h)
            with h' | h'
          · exact Or.inl (List.mem_cons_of_mem item h')
          · exact Or.inr h'
        · simp only [rtScan, if_pos hm, if_neg hz, if_neg hp, scanList] at h
          rcases List.mem_cons.mp h with h' | h'
          · exact Or.inr ⟨h', hz⟩
          · exact Or.inl (List.mem_cons_of_mem item h')
    · have step : r = item ∨ r ∈ scanList (rtScan new rest) := by
        cases hsc : rtScan new rest with
        | removed l₂ =>
          simp only [rtScan, if_neg hm, hsc, scanList] at h
          simpa [scanList] using h
        | overwrote l₂ =>
          simp only [rtScan, if_neg hm, hsc, scanList] at h
          simpa [scanList] using h
        | noMatch l₂ idx =>
          simp only [rtScan, if_neg hm, hsc, scanList] at h
          simpa [scanList] using h
      rcases step with h' | h'
      · exact Or.inl (h' ▸ List.mem_cons_self item rest)
      · rcases rtScan_mem new rest r h' with h'' | h''
        · exact Or.inl (List.mem_cons_of_mem item h'')
        · exact Or.inr h''

theorem add_gateway_pos (new : NMNDiscGateway) (l : List NMNDiscGateway)
    (h : ∀ g ∈ l, g.lifetime ≠ 0) :
    ∀ g ∈ (nm_ndisc_add_gateway new l).2, g.lifetime ≠ 0 := by
  intro g hg
  rw [nm_ndisc_add_gateway] at hg
  cases hsc : gwScan new l with
  | removed l₂ =>
    rw [hsc] at hg
    rcases gwScan_mem new l g (by rw [hsc]; exact hg) with h' | h'
    · exact h g h'
    · exact h'.1 ▸ h'.2
  | overwrote l₂ =>
    rw [hsc] at hg
    rcases gwScan_mem new l g (by rw [hsc]; exact hg) with h' | h'
    · exact h g h'
    · exact h'.1 ▸ h'.2
  | noMatch l₂ idx =>
    rw [hsc] at hg
    by_cases hz : new.lifetime ≠ 0
    · simp only [if_pos hz] at hg
      rcases listInsertAt_mem new g (idx.getD 0) l₂ hg with h' | h'
      · exact h' ▸ hz
      · rcases gwScan_mem new l g (by rw [hsc]; exact h') with h'' | h''
        · exact h g h''
        · exact h''.1 ▸ h''.2
    · simp only [if_neg hz] at hg
      rcases gwScan_mem new l g (by rw [hsc]; exact hg) with h' | h'
      · exact h g h'
      · exact h'.1 ▸ h'.2

theorem add_route_pos (new : NMNDiscRoute) (l : List NMNDiscRoute)
    (h : ∀ r ∈ l, r.lifetime ≠ 0) :
    ∀ r ∈ (nm_ndisc_add_route new l).2, r.lifetime ≠ 0 := by
  intro r hr
  rw [nm_ndisc_add_route] at hr
  by_cases hpl : new.plen = 0 ∨ new.plen > 128
  · rw [if_pos hpl] at hr
    exact h r hr
  · rw [if_neg hpl] at hr
    cases hsc : rtScan new l with
    | removed l₂ =>
      rw [hsc] at hr
      rcases rtScan_mem new l r (by rw [hsc]; exact hr) with h' | h'
      · exact h r h'
      · exact h'.1 ▸ h'.2
    | overwrote l₂ =>
      rw [hsc] at hr
      rcases rtScan_mem new l r (by rw [hsc]; exact hr) with h' | h'
      · exact h r h'
      · exact h'.1 ▸ h'.2
    | noMatch l₂ idx =>
      rw [hsc] at hr
      by_cases hz : new.lifetime ≠ 0
      · simp only [if_pos hz] at hr
        rcases listInsertAt_mem new r (idx.getD 0) l₂ hr with h' | h'
        · exact h' ▸ hz
        · rcases rtScan_mem new l r (by rw [hsc]; exact h') with h'' | h''
          · exact h r h''
          · exact h''.1 ▸ h''.2
      · simp only [if_neg hz] at hr
        rcases rtScan_mem new l r (by rw [hsc]; exact hr) with h' | h'
        · exact h r h'
        · exact h'.1 ▸ h'.2

theorem add_dns_server_pos (new : NMNDiscDNSServer) :
    ∀ l : List NMNDiscDNSServer, (∀ s ∈ l, s.lifetime ≠ 0) →
    ∀ s ∈ (nm_ndisc_add_dns_server new l).2, s.lifetime ≠ 0
  | [], h, s, hs => by
    by_cases hz : new.lifetime ≠ 0 <;> simp [nm_ndisc_add_dns_server, hz] at hs
    exact hs ▸ hz
  | item :: rest, h, s, hs => by
    by_cases hm : item.address = new.address
    · by_cases hz : new.lifetime = 0
      · simp only [nm_ndisc_add_dns_server, if_pos hm, if_pos hz] at hs
        exact h s (List.mem_cons_of_mem item hs)
      · by_cases hc : item.timestamp ≠ new.timestamp ∨ item.lifetime ≠ new.lifetime
        · simp only [nm_ndisc_add_dns_server, if_pos hm, if_neg hz, if_pos hc] at hs
          rcases List.mem_cons.mp hs with h' | h'
          · exact h' ▸ hz
          · exact h s (List.mem_cons_of_mem item h')
        · simp only [nm_ndisc_add_dns_server, if_pos hm, if_neg hz, if_neg hc] at hs
          exact h s hs
    · simp only [nm_ndisc_add_dns_server, if_neg hm] at hs
      rcases List.mem_cons.mp hs with h' | h'
      · exact h' ▸ h item (List.mem_cons_self item rest)
      · exact add_dns_server_pos new rest (fun x hx => h x (List.mem_cons_of_mem item hx)) s h'

theorem add_dns_domain_pos (new : NMNDiscDNSDomain) :
    ∀ l : List NMNDiscDNSDomain, (∀ d ∈ l, d.lifetime ≠ 0) →
    ∀ d ∈ (nm_ndisc_add_dns_domain new l).2, d.lifetime ≠ 0
  | [], h, d, hd => by
    by_cases hz : new.lifetime ≠ 0 <;> simp [nm_ndisc_add_dns_domain, hz] at hd
    exact hd ▸ hz
  | item :: rest, h, d, hd => by
    by_cases hm : item.domain = new.domain
    · by_cases hz : new.lifetime = 0
      · simp only [nm_ndisc_add_dns_domain, if_pos hm, if_pos hz] at hd
        exact h d (List.mem_cons_of_mem item hd)
      · by_cases hc : item.timestamp ≠ new.timestamp ∨ item.lifetime ≠ new.lifetime
        · simp only [nm_ndisc_add_dns_domain, if_pos hm, if_neg hz, if_pos hc] at hd
          rcases List.mem_cons.mp hd with h' | h'
          · rw [h']
            exact hz
          · exact h d (List.mem_cons_of_mem item h')
        · simp only [nm_ndisc_add_dns_domain, if_pos hm, if_neg hz, if_neg hc] at hd
          exact h d hd
    · simp only [nm_ndisc_add_dns_domain, if_neg hm] at hd
      rcases List.mem_cons.mp hd with h' | h'
      · exact h' ▸ h item (List.mem_cons_self item rest)
      · exact add_dns_domain_pos new rest (fun x hx => h x (List.mem_cons_of_mem item hx)) d h'

theorem addrScan_pos (max_addresses lenAll : Nat) (new : NMNDiscAddress) :
    ∀ l : List NMNDiscAddress, (∀ a ∈ l, a.lifetime ≠ 0) →
    ∀ a ∈ (addrScan max_addresses lenAll new l).2, a.lifetime ≠ 0
  | [], h, a, ha => by
    by_cases hc : max_addresses ≠ 0 ∧ lenAll ≥ max_addresses
    · simp [addrScan, hc] at ha
    · by_cases hz : new.lifetime ≠ 0 <;> simp [addrScan, hc, hz] at ha
      exact ha ▸ hz
  | item :: rest, h, a, ha => by
    by_cases hm : item.address = new.address
    · by_cases hz : new.lifetime = 0
      · simp only [addrScan, if_pos hm, if_pos hz] at ha
        exact h a (List.mem_cons_of_mem item ha)
      · simp only [addrScan, if_pos hm, if_neg hz] at ha
        rcases List.mem_cons.mp ha with h' | h'
        · exact h' ▸ hz
        · exact h a (List.mem_cons_of_mem item h')
    · simp only [addrScan, if_neg hm] at ha
      rcases List.mem_cons.mp ha with h' | h'
      · exact h' ▸ h item (List.mem_cons_self item rest)
      · exact addrScan_pos max_addresses lenAll new rest
          (fun x hx => h x (List.mem_cons_of_mem item hx)) a h'

theorem complete_address_fields (mode : AddrGenMode) (derive : StablePrivacyDerive)
    (iid : Nat) (addr : NMNDiscAddress) :
    (complete_address mode derive iid addr).2.lifetime = addr.lifetime ∧
    (complete_address mode derive iid addr).2.timestamp = addr.timestamp ∧
    (complete_address mode derive iid addr).2.preferred = addr.preferred ∧
    (complete_address mode derive iid addr).2.address.hi = addr.address.hi := by
  cases mode
  · unfold complete_address
    by_cases h0 : iid = 0
    · simp [h0]
    · by_cases hlo : addr.address.lo = 0 <;> simp [h0, hlo]
  · unfold complete_address
    cases hd : derive addr.dad_counter <;> simp [hd]

theorem complete_and_add_address_pos (mode : AddrGenMode) (derive : StablePrivacyDerive)
    (iid : Nat) (max_addresses : Nat) (new : NMNDiscAddress) (l : List NMNDiscAddress)
    (h : ∀ a ∈ l, a.lifetime ≠ 0) :
    ∀ a ∈ (nm_ndisc_complete_and_add_address mode derive iid max_addresses new l).2,
      a.lifetime ≠ 0 := by
  intro a ha
  rw [nm_ndisc_complete_and_add_address] at ha
  cases hc : complete_address mode derive iid new with
  | mk ok completed =>
    cases ok
    · rw [hc] at ha
      exact h a ha
    · rw [hc] at ha
      exact addrScan_pos max_addresses l.length completed l h a ha

theorem applyAdd_pos (mode : AddrGenMode) (derive : StablePrivacyDerive) (iid : Nat)
    (max_addresses : Nat) (rd : NMNDiscDataInternal) (h : rdataLifetimesPos rd)
    (req : AddReq) : rdataLifetimesPos (applyAdd mode derive iid max_addresses rd req) := by
  obtain ⟨h1, h2, h3, h4, h5⟩ := h
  cases req with
  | gw g => exact ⟨add_gateway_pos g _ h1, h2, h3, h4, h5⟩
  | addr a => exact ⟨h1, complete_and_add_address_pos mode derive iid max_addresses a _ h2, h3, h4, h5⟩
  | rt r => exact ⟨h1, h2, add_route_pos r _ h3, h4, h5⟩
  | dns s => exact ⟨h1, h2, h3, add_dns_server_pos s _ h4, h5⟩
  | dom d => exact ⟨h1, h2, h3, h4, add_dns_domain_pos d _ h5⟩

theorem applyAdds_pos (mode : AddrGenMode) (derive : StablePrivacyDerive) (iid : Nat)
    (max_addresses : Nat) (reqs : List AddReq) :
    ∀ rd, rdataLifetimesPos rd → rdataLifetimesPos (applyAdds mode derive iid max_addresses reqs rd) := by
  induction reqs with
  | nil => exact fun rd h => h
  | cons r rs ih =>
    intro rd h
    exact ih _ (applyAdd_pos mode derive iid max_addresses rd h r)

theorem emptyRData_pos : rdataLifetimesPos emptyRData := by
  refine ⟨?_, ?_, ?_, ?_, ?_⟩ <;> simp [emptyRData]

/-- C6 (amended): for `nm_ndisc_add_gateway`, `nm_ndisc_add_route`,
`nm_ndisc_add_dns_server` and `nm_ndisc_add_dns_domain`, a zero-lifetime item
removes the first identity-matching stored item (changed) and never inserts,
and is a no-op (unchanged) without a match; for
`nm_ndisc_complete_and_add_address` the same holds only when address
completion succeeds (matching on the completed address) — when completion
fails the call returns unchanged even if an identity match is stored.  Every
item stored by any sequence of add calls from empty has non-zero lifetime. -/
theorem C6_zero_lifetime :
    (∀ (new : NMNDiscGateway) (l : List NMNDiscGateway), new.lifetime = 0 →
       nm_ndisc_add_gateway new l =
         (l.any fun g => decide (g.address = new.address),
          l.eraseP fun g => decide (g.address = new.address))) ∧
    (∀ (new : NMNDiscRoute) (l : List NMNDiscRoute), new.lifetime = 0 →
       1 ≤ new.plen ∧ new.plen ≤ 128 →
       nm_ndisc_add_route new l =
         (l.any fun r => decide (r.network = new.network) && decide (r.plen = new.plen),
          l.eraseP fun r => decide (r.network = new.network) && decide (r.plen = new.plen))) ∧
    (∀ (new : NMNDiscDNSServer) (l : List NMNDiscDNSServer), new.lifetime = 0 →
       nm_ndisc_add_dns_server new l =
         (l.any fun s => decide (s.address = new.address),
          l.eraseP fun s => decide (s.address = new.address))) ∧
    (∀ (new : NMNDiscDNSDomain) (l : List NMNDiscDNSDomain), new.lifetime = 0 →
       nm_ndisc_add_dns_domain new l =
         (l.any fun d => decide (d.domain = new.domain),
          l.eraseP fun d => decide (d.domain = new.domain))) ∧
    (∀ (mode : AddrGenMode) (derive : StablePrivacyDerive) (iid max_addresses : Nat)
       (new completed : NMNDiscAddress) (l : List NMNDiscAddress), new.lifetime = 0 →
       complete_address mode derive iid new = (true, completed) →
       nm_ndisc_complete_and_add_address mode derive iid max_addresses new l =
         (l.any fun a => decide (a.address = completed.address),
          l.eraseP fun a => decide (a.address = completed.address))) ∧
    (∀ (mode : AddrGenMode) (derive : StablePrivacyDerive) (iid max_addresses : Nat)
       (new failed : NMNDiscAddress) (l : List NMNDiscAddress),
       complete_address mode derive iid new = (false, failed) →
       nm_ndisc_complete_and_add_address mode derive iid max_addresses new l = (false, l)) ∧
    (∀ (mode : AddrGenMode) (derive : StablePrivacyDerive) (iid max_addresses : Nat)
       (reqs : List AddReq),
       rdataLifetimesPos (applyAdds mode derive iid max_addresses reqs emptyRData)) := by
  refine ⟨fun new l h => add_gateway_zero new h l,
          fun new l h hp => add_route_zero new h hp l,
          fun new l h => add_dns_server_zero new h l,
          fun new l h => add_dns_domain_zero new h l,
          ?_, ?_, ?_⟩
  · intro mode derive iid max_addresses new completed l h hc
    have hcl : completed.lifetime = 0 := by
      have := (complete_address_fields mode derive iid new).1
      rw [hc] at this
      exact this.trans h
    rw [nm_ndisc_complete_and_add_address, hc]
    exact addrScan_zero max_addresses l.length completed hcl l
  · intro mode derive iid max_addresses new failed l hc
    rw [nm_ndisc_complete_and_add_address, hc]
  · intro mode derive iid max_addresses reqs
    exact applyAdds_pos mode derive iid max_addresses reqs emptyRData emptyRData_pos

/-- C6 counterexample: `nm_ndisc_complete_and_add_address` in EUI-64 mode
with a zero-lifetime item whose (already completed, low-64-bits non-zero)
address identity-matches a stored item fails address completion first and
returns unchanged with the item still stored, instead of removing it. -/
theorem C6_counterexample :
    ((⟨⟨10, 99⟩, 7, 0, 0, 0⟩ : NMNDiscAddress).lifetime = 0) ∧
    ((⟨⟨10, 99⟩, 7, 0, 0, 0⟩ : NMNDiscAddress).address
       = (⟨⟨10, 99⟩, 0, 100, 50, 0⟩ : NMNDiscAddress).address) ∧
    nm_ndisc_complete_and_add_address .eui64 (fun _ => none) 5 0
        ⟨⟨10, 99⟩, 7, 0, 0, 0⟩ [⟨⟨10, 99⟩, 0, 100, 50, 0⟩]
      = (false, [⟨⟨10, 99⟩, 0, 100, 50, 0⟩]) :=
  ⟨rfl, rfl, rfl⟩

/-- C6 witness: a zero-lifetime gateway withdrawal and a successful
zero-lifetime address withdrawal evaluated on concrete collections. -/
theorem C6_witness :
    nm_ndisc_add_gateway ⟨⟨1, 1⟩, 9, 0, 2⟩ [⟨⟨1, 1⟩, 5, 100, 2⟩, ⟨⟨2, 2⟩, 5, 80, 1⟩]
      = (true, [⟨⟨2, 2⟩, 5, 80, 1⟩]) ∧
    nm_ndisc_complete_and_add_address .eui64 (fun _ => none) 5 0 ⟨⟨10, 0⟩, 7, 0, 0, 0⟩
        [⟨⟨10, 5⟩, 0, 100, 50, 0⟩]
      = (true, []) := by
  constructor
  · have h := C6_zero_lifetime.1 ⟨⟨1, 1⟩, 9, 0, 2⟩ [⟨⟨1, 1⟩, 5, 100, 2⟩, ⟨⟨2, 2⟩, 5, 80, 1⟩] rfl
    simpa using h
  · have h := C6_zero_lifetime.2.2.2.2.1 .eui64 (fun _ => none) 5 0 ⟨⟨10, 0⟩, 7, 0, 0, 0⟩
      ⟨⟨10, 5⟩, 7, 0, 0, 0⟩ [⟨⟨10, 5⟩, 0, 100, 50, 0⟩] rfl rfl
    simpa using h

theorem burstSuccessCount_le (cfg : NMNDiscConfig) :
    ∀ (os : List Bool) (st : NMNDiscPrivate),
    (st.send_rs_id.isSome = true → 1 ≤ st.solicitations_left) →
    (burstSuccessCount cfg st os : Int) ≤ max st.solicitations_left 0
  | [], st, _ => by
    simp only [burstSuccessCount, Nat.cast_zero]
    omega
  | o :: os, st, h => by
    by_cases ha : st.send_rs_id.isSome = true
    · have hl : 1 ≤ st.solicitations_left := h ha
      cases o
      · have st' := send_rs_timeout cfg true (some "fail") 0 st
        have hfields :
            (send_rs_timeout cfg true (some "fail") 0 st).solicitations_left
              = st.solicitations_left ∧
            (send_rs_timeout cfg true (some "fail") 0 st).send_rs_id.isSome = true := by
          simp only [send_rs_timeout]
          by_cases he : st.last_send_rs_error ≠ some "fail" <;>
            simp [he, if_pos (by omega : st.solicitations_left > 0)]
        have ih := burstSuccessCount_le cfg os (send_rs_timeout cfg true (some "fail") 0 st)
          (fun _ => by omega)
        rw [hfields.1] at ih
        simp only [burstSuccessCount, ha, if_true]
        push_cast
        omega
      · have hfields :
            (send_rs_timeout cfg true none 0 st).solicitations_left
              = st.solicitations_left - 1 ∧
            ((send_rs_timeout cfg true none 0 st).send_rs_id.isSome = true →
              st.solicitations_left - 1 > 0) := by
          simp only [send_rs_timeout]
          by_cases hgt : st.solicitations_left - 1 > 0 <;> simp [hgt]
        have ih := burstSuccessCount_le cfg os (send_rs_timeout cfg true none 0 st)
          (fun hs => by have := hfields.2 hs; omega)
        rw [hfields.1] at ih
        simp only [burstSuccessCount, ha, if_true]
        push_cast
        omega
    · simp only [burstSuccessCount, Bool.not_eq_true] at ha ⊢
      rw [ha]
      simp only [Option.isSome_none, Bool.false_eq_true, if_false, Nat.cast_zero]
      omega

/-- C2 (amended): within any burst started by `solicit`, the number of
successful `send_rs` invocations is at most `router_solicitations`, for every
sequence of send-tick outcomes; failed invocations are unbounded. -/
theorem C2_success_bound (cfg : NMNDiscConfig) (now : Int) (st : NMNDiscPrivate)
    (outcomes : List Bool) (hrs : 1 ≤ cfg.router_solicitations)
    (hidle : st.send_rs_id = none) :
    burstSuccessCount cfg (solicit cfg now st) outcomes ≤ cfg.router_solicitations.toNat := by
  have hs : (solicit cfg now st).solicitations_left = cfg.router_solicitations ∧
      (solicit cfg now st).send_rs_id.isSome = true := by
    simp [solicit, hidle]
  have hb := burstSuccessCount_le cfg outcomes (solicit cfg now st)
    (fun _ => by rw [hs.1]; exact hrs)
  rw [hs.1] at hb
  omega

/-- C2 counterexample: with `router_solicitations = 1`, a burst started by
`solicit` in which `send_rs` fails twice invokes the transport `send_rs` twice
(a failed send does not decrement `solicitations_left`, so the burst re-arms),
exceeding the claimed bound of `router_solicitations` invocations. -/
theorem C2_counterexample :
    (⟨.eui64, 0, 1, 1⟩ : NMNDiscConfig).router_solicitations = 1 ∧
    burstSendCount ⟨.eui64, 0, 1, 1⟩
      (solicit ⟨.eui64, 0, 1, 1⟩ 0 ⟨⟨[], [], [], [], []⟩, 0, none, -2147483648, none, none, none, 0⟩)
      [false, false] = 2 :=
  ⟨rfl, by decide⟩

/-- C2 witness: the successful-send bound evaluated on a concrete
configuration and outcome sequence. -/
theorem C2_witness :
    1 ≤ (⟨.eui64, 0, 3, 4⟩ : NMNDiscConfig).router_solicitations ∧
    burstSuccessCount ⟨.eui64, 0, 3, 4⟩
      (solicit ⟨.eui64, 0, 3, 4⟩ 0 ⟨⟨[], [], [], [], []⟩, 0, none, -2147483648, none, none, none, 0⟩)
      [true, false, true, true, true] ≤ (3 : Int).toNat :=
  ⟨by decide, C2_success_bound ⟨.eui64, 0, 3, 4⟩ 0 _ [true, false, true, true, true]
    (by decide) rfl⟩

/-- C3 counterexample: in stable-privacy mode with a failing derivation,
`complete_address` returns failure but the address record is changed, because
`addr->dad_counter++` advances the DAD counter before the outcome is known. -/
theorem C3_counterexample :
    (complete_address .stablePrivacy (fun _ => none) 0 ⟨⟨10, 0⟩, 0, 100, 50, 3⟩).1 = false ∧
    (complete_address .stablePrivacy (fun _ => none) 0 ⟨⟨10, 0⟩, 0, 100, 50, 3⟩).2
      ≠ ⟨⟨10, 0⟩, 0, 100, 50, 3⟩ :=
  ⟨rfl, by decide⟩

/-- C3 (amended): `complete_address` leaves the high 64 bits of the address
unchanged whenever it succeeds; on failure in EUI-64 mode the record is
entirely unchanged, while on failure in stable-privacy mode the address bytes
are unchanged but the `dad_counter` field is still incremented. -/
theorem C3_frame (mode : AddrGenMode) (derive : StablePrivacyDerive) (iid : Nat)
    (addr : NMNDiscAddress) :
    ((complete_address mode derive iid addr).1 = true →
      (complete_address mode derive iid addr).2.address.hi = addr.address.hi) ∧
    (mode = .eui64 → (complete_address mode derive iid addr).1 = false →
      (complete_address mode derive iid addr).2 = addr) ∧
    (mode = .stablePrivacy → (complete_address mode derive iid addr).1 = false →
      (complete_address mode derive iid addr).2
          = { addr with dad_counter := addr.dad_counter + 1 } ∧
      (complete_address mode derive iid addr).2.address = addr.address) := by
  refine ⟨fun _ => (complete_address_fields mode derive iid addr).2.2.2, ?_, ?_⟩
  · rintro rfl hf
    unfold complete_address at hf ⊢
    by_cases h0 : iid = 0
    · simp [h0]
    · by_cases hlo : addr.address.lo = 0
      · simp [h0, hlo] at hf
      · simp [h0, hlo]
  · rintro rfl hf
    unfold complete_address at hf ⊢
    cases hd : derive addr.dad_counter
    · simp [hd]
    · simp [hd] at hf

/-- C3 witness: the three frame properties evaluated at concrete inputs. -/
theorem C3_witness :
    (complete_address .eui64 (fun _ => none) 5 ⟨⟨10, 0⟩, 0, 100, 50, 0⟩).2.address.hi
      = (⟨⟨10, 0⟩, 0, 100, 50, 0⟩ : NMNDiscAddress).address.hi ∧
    (complete_address .eui64 (fun _ => none) 0 ⟨⟨10, 0⟩, 0, 100, 50, 0⟩).2
      = ⟨⟨10, 0⟩, 0, 100, 50, 0⟩ ∧
    (complete_address .stablePrivacy (fun _ => none) 0 ⟨⟨10, 0⟩, 0, 100, 50, 3⟩).2
      = { (⟨⟨10, 0⟩, 0, 100, 50, 3⟩ : NMNDiscAddress) with dad_counter := 4 } :=
  ⟨(C3_frame .eui64 (fun _ => none) 5 ⟨⟨10, 0⟩, 0, 100, 50, 0⟩).1 rfl,
   (C3_frame .eui64 (fun _ => none) 0 ⟨⟨10, 0⟩, 0, 100, 50, 0⟩).2.1 rfl rfl,
   ((C3_frame .stablePrivacy (fun _ => none) 0 ⟨⟨10, 0⟩, 0, 100, 50, 3⟩).2.2 rfl rfl).1⟩

theorem solicit_rdata (cfg : NMNDiscConfig) (now : Int) (st : NMNDiscPrivate) :
    (solicit cfg now st).rdata = st.rdata := by
  unfold solicit
  by_cases h : st.send_rs_id.isSome <;> simp [h]

theorem solicit_ra_timeout (cfg : NMNDiscConfig) (now : Int) (st : NMNDiscPrivate) :
    (solicit cfg now st).ra_timeout_id = st.ra_timeout_id := by
  unfold solicit
  by_cases h : st.send_rs_id.isSome <;> simp [h]

/-- C4: `nm_ndisc_set_iid` with an unchanged IID returns no-regeneration and
leaves the state alone; with a new IID in stable-privacy mode it records the
IID and returns no-regeneration leaving addresses untouched; with a new IID in
EUI-64 mode and a non-empty address list it stores the IID, empties the
address list, emits `config_changed` with the ADDRESSES bit, calls `solicit`,
and returns regenerate (with an empty list it just stores and returns
regenerate). -/
theorem C4_set_iid (cfg : NMNDiscConfig) (now : Int) (st : NMNDiscPrivate) (iid : Nat) :
    (st.iid = iid → nm_ndisc_set_iid cfg now st iid = (false, st, [])) ∧
    (st.iid ≠ iid → cfg.addr_gen_mode = .stablePrivacy →
       nm_ndisc_set_iid cfg now st iid = (false, { st with iid := iid }, [])) ∧
    (st.iid ≠ iid → cfg.addr_gen_mode = .eui64 → st.rdata.addresses ≠ [] →
       nm_ndisc_set_iid cfg now st iid =
         (true,
          solicit cfg now { st with iid := iid, rdata := { st.rdata with addresses := [] } },
          [.config_changed NM_NDISC_CONFIG_ADDRESSES]) ∧
       (nm_ndisc_set_iid cfg now st iid).2.1.rdata.addresses = []) ∧
    (st.iid ≠ iid → cfg.addr_gen_mode = .eui64 → st.rdata.addresses = [] →
       nm_ndisc_set_iid cfg now st iid = (true, { st with iid := iid }, [])) := by
  refine ⟨?_, ?_, ?_, ?_⟩
  · intro he
    simp [nm_ndisc_set_iid, he]
  · intro hne hm
    simp [nm_ndisc_set_iid, hne, hm]
  · intro hne hm hadr
    have hmode : cfg.addr_gen_mode ≠ .stablePrivacy := by rw [hm]; intro hc; cases hc
    have hlen : st.rdata.addresses.length ≠ 0 := by
      intro hc
      exact hadr (List.length_eq_zero.mp hc)
    constructor
    · simp [nm_ndisc_set_iid, hne, hmode, hlen]
    · simp [nm_ndisc_set_iid, hne, hmode, hlen, solicit_rdata]
  · intro hne hm hadr
    have hmode : cfg.addr_gen_mode ≠ .stablePrivacy := by rw [hm]; intro hc; cases hc
    simp [nm_ndisc_set_iid, hne, hmode, hadr]

/-- C4 witness: the four `nm_ndisc_set_iid` cases evaluated at concrete
states. -/
theorem C4_witness :
    nm_ndisc_set_iid ⟨.eui64, 0, 3, 4⟩ 0
        ⟨⟨[], [⟨⟨10, 5⟩, 0, 100, 50, 0⟩], [], [], []⟩, 0, none, 0, none, none, none, 1⟩ 7
      = (true,
         solicit ⟨.eui64, 0, 3, 4⟩ 0
           ⟨⟨[], [], [], [], []⟩, 0, none, 0, none, none, none, 7⟩,
         [.config_changed NM_NDISC_CONFIG_ADDRESSES]) ∧
    (nm_ndisc_set_iid ⟨.eui64, 0, 3, 4⟩ 0
        ⟨⟨[], [⟨⟨10, 5⟩, 0, 100, 50, 0⟩], [], [], []⟩, 0, none, 0, none, none, none, 1⟩ 7).2.1.rdata.addresses
      = [] ∧
    nm_ndisc_set_iid ⟨.stablePrivacy, 0, 3, 4⟩ 0
        ⟨⟨[], [⟨⟨10, 5⟩, 0, 100, 50, 0⟩], [], [], []⟩, 0, none, 0, none, none, none, 1⟩ 7
      = (false,
         ⟨⟨[], [⟨⟨10, 5⟩, 0, 100, 50, 0⟩], [], [], []⟩, 0, none, 0, none, none, none, 7⟩, []) ∧
    nm_ndisc_set_iid ⟨.eui64, 0, 3, 4⟩ 0
        ⟨⟨[], [], [], [], []⟩, 0, none, 0, none, none, none, 1⟩ 1
      = (false, ⟨⟨[], [], [], [], []⟩, 0, none, 0, none, none, none, 1⟩, []) := by
  refine ⟨?_, ?_, ?_, ?_⟩
  · exact ((C4_set_iid ⟨.eui64, 0, 3, 4⟩ 0
      ⟨⟨[], [⟨⟨10, 5⟩, 0, 100, 50, 0⟩], [], [], []⟩, 0, none, 0, none, none, none, 1⟩ 7).2.2.1
      (by decide) rfl (by decide)).1
  · exact ((C4_set_iid ⟨.eui64, 0, 3, 4⟩ 0
      ⟨⟨[], [⟨⟨10, 5⟩, 0, 100, 50, 0⟩], [], [], []⟩, 0, none, 0, none, none, none, 1⟩ 7).2.2.1
      (by decide) rfl (by decide)).2
  · exact (C4_set_iid ⟨.stablePrivacy, 0, 3, 4⟩ 0
      ⟨⟨[], [⟨⟨10, 5⟩, 0, 100, 50, 0⟩], [], [], []⟩, 0, none, 0, none, none, none, 1⟩ 7).2.1
      (by decide) rfl
  · exact (C4_set_iid ⟨.eui64, 0, 3, 4⟩ 0
      ⟨⟨[], [], [], [], []⟩, 0, none, 0, none, none, none, 1⟩ 1).1 rfl

theorem clean_gateways_mem (now : Nat) :
    ∀ (l : List NMNDiscGateway) (ne : Nat) (g : NMNDiscGateway),
    g ∈ (clean_gateways now l ne).1 →
    g.lifetime = G_MAXUINT32 ∨ now < g.timestamp + g.lifetime
  | [], ne, g, h => by simp [clean_gateways] at h
  | item :: rest, ne, g, h => by
    by_cases hinf : item.lifetime = G_MAXUINT32
    · simp only [clean_gateways, if_pos hinf] at h
      rcases List.mem_cons.mp h with h' | h'
      · exact Or.inl (h' ▸ hinf)
      · exact clean_gateways_mem now rest ne g h'
    · by_cases hexp : now ≥ item.timestamp + item.lifetime
      · simp only [clean_gateways, if_neg hinf, if_pos hexp] at h
        exact clean_gateways_mem now rest ne g h
      · simp only [clean_gateways, if_neg hinf, if_neg hexp] at h
        rcases List.mem_cons.mp h with h' | h'
        · refine Or.inr ?_
          rw [h']
          omega
        · exact clean_gateways_mem now rest _ g h'

theorem clean_addresses_mem (now : Nat) :
    ∀ (l : List NMNDiscAddress) (ne : Nat) (a : NMNDiscAddress),
    a ∈ (clean_addresses now l ne).1 →
    a.lifetime = G_MAXUINT32 ∨ now < a.timestamp + a.lifetime
  | [], ne, a, h => by simp [clean_addresses] at h
  | item :: rest, ne, a, h => by
    by_cases hinf : item.lifetime = G_MAXUINT32
    · simp only [clean_addresses, if_pos hinf] at h
      rcases List.mem_cons.mp h with h' | h'
      · exact Or.inl (h' ▸ hinf)
      · exact clean_addresses_mem now rest ne a h'
    · by_cases hexp : now ≥ item.timestamp + item.lifetime
      · simp only [clean_addresses, if_neg hinf, if_pos hexp] at h
        exact clean_addresses_mem now rest ne a h
      · simp only [clean_addresses, if_neg hinf, if_neg hexp] at h
        rcases List.mem_cons.mp h with h' | h'
        · refine Or.inr ?_
          rw [h']
          omega
        · exact clean_addresses_mem now rest _ a h'

theorem clean_routes_mem (now : Nat) :
    ∀ (l : List NMNDiscRoute) (ne : Nat) (r : NMNDiscRoute),
    r ∈ (clean_routes now l ne).1 →
    r.lifetime = G_MAXUINT32 ∨ now < r.timestamp + r.lifetime
  | [], ne, r, h => by simp [clean_routes] at h
  | item :: rest, ne, r, h => by
    by_cases hinf : item.lifetime = G_MAXUINT32
    · simp only [clean_routes, if_pos hinf] at h
      rcases List.mem_cons.mp h with h' | h'
      · exact Or.inl (h' ▸ hinf)
      · exact clean_routes_mem now rest ne r h'
    · by_cases hexp : now ≥ item.timestamp + item.lifetime
      · simp only [clean_routes, if_neg hinf, if_pos hexp] at h
        exact clean_routes_mem now rest ne r h
      · simp only [clean_routes, if_neg hinf, if_neg hexp] at h
        rcases List.mem_cons.mp h with h' | h'
        · refine Or.inr ?_
          rw [h']
          omega
        · exact clean_routes_mem now rest _ r h'

theorem clean_dns_servers_mem (now : Nat) :
    ∀ (l : List NMNDiscDNSServer) (ne : Nat) (s : NMNDiscDNSServer),
    s ∈ (clean_dns_servers now l ne).1 →
    s.lifetime = G_MAXUINT32 ∨ now < s.timestamp + s.lifetime
  | [], ne, s, h => by simp [clean_dns_servers] at h
  | item :: rest, ne, s, h => by
    by_cases hinf : item.lifetime = G_MAXUINT32
    · simp only [clean_dns_servers, if_pos hinf] at h
      rcases List.mem_cons.mp h with h' | h'
      · exact Or.inl (h' ▸ hinf)
      · exact clean_dns_servers_mem now rest ne s h'
    · by_cases hexp : now ≥ item.timestamp + item.lifetime
      · simp only [clean_dns_servers, if_neg hinf, if_pos hexp] at h
        exact clean_dns_servers_mem now rest ne s h
      · by_cases href : now ≥ item.timestamp + item.lifetime / 2
        · simp only [clean_dns_servers, if_neg hinf, if_neg hexp, if_pos href] at h
          rcases List.mem_cons.mp h with h' | h'
          · refine Or.inr ?_
            rw [h']
            omega
          · exact clean_dns_servers_mem now rest ne s h'
        · simp only [clean_dns_servers, if_neg hinf, if_neg hexp, if_neg href] at h
          rcases List.mem_cons.mp h with h' | h'
          · refine Or.inr ?_
            rw [h']
            omega
          · exact clean_dns_servers_mem now rest _ s h'

theorem clean_dns_domains_mem (now : Nat) :
    ∀ (l : List NMNDiscDNSDomain) (ne : Nat) (d : NMNDiscDNSDomain),
    d ∈ (clean_dns_domains now l ne).1 →
    d.lifetime = G_MAXUINT32 ∨ now < d.timestamp + d.lifetime
  | [], ne, d, h => by simp [clean_dns_domains] at h
  | item :: rest, ne, d, h => by
    by_cases hinf : item.lifetime = G_MAXUINT32
    · simp only [clean_dns_domains, if_pos hinf] at h
      rcases List.mem_cons.mp h with h' | h'
      · exact Or.inl (h' ▸ hinf)
      · exact clean_dns_domains_mem now rest ne d h'
    · by_cases hexp : now ≥ item.timestamp + item.lifetime
      · simp only [clean_dns_domains, if_neg hinf, if_pos hexp] at h
        exact clean_dns_domains_mem now rest ne d h
      · by_cases href : now ≥ item.timestamp + item.lifetime / 2
        · simp only [clean_dns_domains, if_neg hinf, if_neg hexp, if_pos href] at h
          rcases List.mem_cons.mp h with h' | h'
          · refine Or.inr ?_
            rw [h']
            omega
          · exact clean_dns_domains_mem now rest ne d h'
        · simp only [clean_dns_domains, if_neg hinf, if_neg hexp, if_neg href] at h
          rcases List.mem_cons.mp h with h' | h'
          · refine Or.inr ?_
            rw [h']
            omega
          · exact clean_dns_domains_mem now rest _ d h'

/-- C5: after `check_timestamps` sweeps at time `now`, every item still in
any of the five collections has the infinite lifetime sentinel `0xFFFFFFFF`
or a 64-bit `timestamp + lifetime` strictly greater than `now`. -/
theorem C5_sweep_expiry (now changed0 : Nat) (rd : NMNDiscDataInternal) :
    (∀ g ∈ (check_timestamps now changed0 rd).1.gateways,
       g.lifetime = G_MAXUINT32 ∨ g.timestamp + g.lifetime > now) ∧
    (∀ a ∈ (check_timestamps now changed0 rd).1.addresses,
       a.lifetime = G_MAXUINT32 ∨ a.timestamp + a.lifetime > now) ∧
    (∀ r ∈ (check_timestamps now changed0 rd).1.routes,
       r.lifetime = G_MAXUINT32 ∨ r.timestamp + r.lifetime > now) ∧
    (∀ s ∈ (check_timestamps now changed0 rd).1.dns_servers,
       s.lifetime = G_MAXUINT32 ∨ s.timestamp + s.lifetime > now) ∧
    (∀ d ∈ (check_timestamps now changed0 rd).1.dns_domains,
       d.lifetime = G_MAXUINT32 ∨ d.timestamp + d.lifetime > now) :=
  ⟨fun g hg => clean_gateways_mem now rd.gateways _ g hg,
   fun a ha => clean_addresses_mem now rd.addresses _ a ha,
   fun r hr => clean_routes_mem now rd.routes _ r hr,
   fun s hs => clean_dns_servers_mem now rd.dns_servers _ s hs,
   fun d hd => clean_dns_domains_mem now rd.dns_domains _ d hd⟩

/-- C5 witness: a sweep over a concrete gateway collection keeps the
unexpired gateway, which satisfies the expiry property. -/
theorem C5_witness :
    (⟨⟨1, 1⟩, 0, 100, 3⟩ : NMNDiscGateway) ∈
      (check_timestamps 50 0
        ⟨[⟨⟨1, 1⟩, 0, 100, 3⟩, ⟨⟨2, 2⟩, 0, 40, 1⟩], [], [], [], []⟩).1.gateways ∧
    ((⟨⟨1, 1⟩, 0, 100, 3⟩ : NMNDiscGateway).lifetime = G_MAXUINT32 ∨
     (⟨⟨1, 1⟩, 0, 100, 3⟩ : NMNDiscGateway).timestamp
       + (⟨⟨1, 1⟩, 0, 100, 3⟩ : NMNDiscGateway).lifetime > 50) :=
  ⟨by decide,
   (C5_sweep_expiry 50 0 ⟨[⟨⟨1, 1⟩, 0, 100, 3⟩, ⟨⟨2, 2⟩, 0, 40, 1⟩], [], [], [], []⟩).1
     ⟨⟨1, 1⟩, 0, 100, 3⟩ (by decide)⟩

theorem addrScan_len (max_addresses lenAll : Nat) (new : NMNDiscAddress) :
    ∀ l : List NMNDiscAddress,
    (addrScan max_addresses lenAll new l).2.length ≤
      (if max_addresses ≠ 0 ∧ lenAll ≥ max_addresses then l.length else l.length + 1)
  | [] => by
    by_cases hc : max_addresses ≠ 0 ∧ lenAll ≥ max_addresses
    · simp [addrScan, hc]
    · by_cases hz : new.lifetime ≠ 0 <;> simp [addrScan, hc, hz]
  | item :: rest => by
    have ih := addrScan_len max_addresses lenAll new rest
    by_cases hm : item.address = new.address
    · by_cases hz : new.lifetime = 0 <;>
        by_cases hc : max_addresses ≠ 0 ∧ lenAll ≥ max_addresses <;>
        simp [addrScan, hm, hz, hc] <;> omega
    · by_cases hc : max_addresses ≠ 0 ∧ lenAll ≥ max_addresses <;>
        simp only [addrScan, if_neg hm, List.length_cons] <;>
        simp [hc] at ih ⊢ <;> omega

theorem complete_and_add_address_cap (mode : AddrGenMode) (derive : StablePrivacyDerive)
    (iid max_addresses : Nat) (new : NMNDiscAddress) (l : List NMNDiscAddress)
    (hm : 0 < max_addresses) (h : l.length ≤ max_addresses) :
    (nm_ndisc_complete_and_add_address mode derive iid max_addresses new l).2.length
      ≤ max_addresses := by
  rw [nm_ndisc_complete_and_add_address]
  cases hc : complete_address mode derive iid new with
  | mk ok completed =>
    cases ok
    · exact h
    · show (addrScan max_addresses l.length completed l).2.length ≤ max_addresses
      have hlen := addrScan_len max_addresses l.length completed l
      by_cases hcap : max_addresses ≠ 0 ∧ l.length ≥ max_addresses <;>
        simp [hcap] at hlen <;> omega

theorem applyAdd_cap (mode : AddrGenMode) (derive : StablePrivacyDerive)
    (iid max_addresses : Nat) (hm : 0 < max_addresses) (rd : NMNDiscDataInternal)
    (h : rd.addresses.length ≤ max_addresses) (req : AddReq) :
    (applyAdd mode derive iid max_addresses rd req).addresses.length ≤ max_addresses := by
  cases req with
  | gw g => exact h
  | addr a => exact complete_and_add_address_cap mode derive iid max_addresses a _ hm h
  | rt r => exact h
  | dns s => exact h
  | dom d => exact h

theorem applyAdds_cap (mode : AddrGenMode) (derive : StablePrivacyDerive)
    (iid max_addresses : Nat) (hm : 0 < max_addresses) (reqs : List AddReq) :
    ∀ rd, rd.addresses.length ≤ max_addresses →
    (applyAdds mode derive iid max_addresses reqs rd).addresses.length ≤ max_addresses := by
  induction reqs with
  | nil => exact fun rd h => h
  | cons r rs ih =>
    intro rd h
    exact ih _ (applyAdd_cap mode derive iid max_addresses hm rd h r)

theorem addrScan_noMatchIns (max_addresses lenAll : Nat) (new : NMNDiscAddress)
    (hz : new.lifetime ≠ 0) :
    ∀ l : List NMNDiscAddress, (∀ a ∈ l, a.address ≠ new.address) →
    addrScan max_addresses lenAll new l =
      if max_addresses ≠ 0 ∧ lenAll ≥ max_addresses then (false, l) else (true, l ++ [new])
  | [], _ => by
    by_cases hc : max_addresses ≠ 0 ∧ lenAll ≥ max_addresses <;> simp [addrScan, hc, hz]
  | item :: rest, h => by
    have hm := h item (List.mem_cons_self item rest)
    have ih := addrScan_noMatchIns max_addresses lenAll new hz rest
      (fun a ha => h a (List.mem_cons_of_mem item ha))
    by_cases hc : max_addresses ≠ 0 ∧ lenAll ≥ max_addresses <;>
      simp [addrScan, hm, ih, hc]

/-- C7: whenever `max_addresses > 0`, the address collection built by any
sequence of add calls from empty never exceeds `max_addresses` items;
a fresh address (no identity match, non-zero lifetime) is appended when the
count is below the cap and dropped silently (unchanged) when the count has
reached it. -/
theorem C7_cap :
    (∀ (mode : AddrGenMode) (derive : StablePrivacyDerive) (iid max_addresses : Nat)
       (reqs : List AddReq), 0 < max_addresses →
       (applyAdds mode derive iid max_addresses reqs emptyRData).addresses.length
         ≤ max_addresses) ∧
    (∀ (mode : AddrGenMode) (derive : StablePrivacyDerive) (iid max_addresses : Nat)
       (new completed : NMNDiscAddress) (l : List NMNDiscAddress), 0 < max_addresses →
       complete_address mode derive iid new = (true, completed) →
       (∀ a ∈ l, a.address ≠ completed.address) → completed.lifetime ≠ 0 →
       (l.length ≥ max_addresses →
          nm_ndisc_complete_and_add_address mode derive iid max_addresses new l
            = (false, l)) ∧
       (l.length < max_addresses →
          nm_ndisc_complete_and_add_address mode derive iid max_addresses new l
            = (true, l ++ [completed]))) := by
  constructor
  · intro mode derive iid max_addresses reqs hm
    exact applyAdds_cap mode derive iid max_addresses hm reqs emptyRData (by simp [emptyRData])
  · intro mode derive iid max_addresses new completed l hm hc hnm hz
    have hscan := addrScan_noMatchIns max_addresses l.length completed hz l hnm
    constructor
    · intro hge
      rw [nm_ndisc_complete_and_add_address, hc]
      show addrScan max_addresses l.length completed l = (false, l)
      rw [hscan, if_pos ⟨by omega, hge⟩]
    · intro hlt
      rw [nm_ndisc_complete_and_add_address, hc]
      show addrScan max_addresses l.length completed l = (true, l ++ [completed])
      rw [hscan, if_neg (by omega)]

/-- C7 witness: the cap evaluated on a concrete two-request sequence with
`max_addresses = 1`, and a concrete silent drop at the cap. -/
theorem C7_witness :
    0 < 1 ∧
    (applyAdds .eui64 (fun _ => none) 5 1
      [.addr ⟨⟨10, 0⟩, 0, 100, 50, 0⟩, .addr ⟨⟨11, 0⟩, 0, 100, 50, 0⟩]
      emptyRData).addresses.length ≤ 1 ∧
    nm_ndisc_complete_and_add_address .eui64 (fun _ => none) 5 1 ⟨⟨11, 0⟩, 0, 100, 50, 0⟩
        [⟨⟨10, 5⟩, 0, 100, 50, 0⟩]
      = (false, [⟨⟨10, 5⟩, 0, 100, 50, 0⟩]) := by
  refine ⟨by decide, ?_, ?_⟩
  · exact C7_cap.1 .eui64 (fun _ => none) 5 1
      [.addr ⟨⟨10, 0⟩, 0, 100, 50, 0⟩, .addr ⟨⟨11, 0⟩, 0, 100, 50, 0⟩] (by decide)
  · exact (C7_cap.2 .eui64 (fun _ => none) 5 1 ⟨⟨11, 0⟩, 0, 100, 50, 0⟩ ⟨⟨11, 5⟩, 0, 100, 50, 0⟩
      [⟨⟨10, 5⟩, 0, 100, 50, 0⟩] (by decide) rfl (by decide) (by decide)).1 (by decide)

/-- C8 witness: overwriting a stored gateway with a refreshed timestamp and
lifetime returns unchanged. -/
theorem C8_witness :
    nm_ndisc_add_gateway ⟨⟨1, 1⟩, 9, 70, 2⟩ [⟨⟨1, 1⟩, 5, 100, 2⟩]
      = (false, [⟨⟨1, 1⟩, 9, 70, 2⟩]) := by
  have h := C8_overwrite_in_place ⟨⟨1, 1⟩, 9, 70, 2⟩ [] [] ⟨⟨1, 1⟩, 5, 100, 2⟩
    (by simp) rfl rfl (by decide)
  simpa using h

/-- C9: `nm_ndisc_start` arms the first-RA timeout with delay exactly
`clamp (router_solicitations * router_solicitation_interval + 1, 30, 120)`
seconds (64-bit arithmetic) for any configuration with both parameters at
least 1, and `ndisc_ra_timeout_cb` emits `ra_timeout` and clears the slot. -/
theorem C9_start_timeout (cfg : NMNDiscConfig) (now : Int) (st : NMNDiscPrivate)
    (h1 : 1 ≤ cfg.router_solicitations) (h2 : 1 ≤ cfg.router_solicitation_interval)
    (h3 : st.ra_timeout_id = none) :
    (nm_ndisc_start cfg now st).ra_timeout_id
      = some (max 30 (min 120
          (cfg.router_solicitations * cfg.router_solicitation_interval + 1))) ∧
    ∀ st' : NMNDiscPrivate,
      ndisc_ra_timeout_cb st' = ({ st' with ra_timeout_id := none }, [.ra_timeout]) := by
  have hclamp : ∀ x : Int, (if x > 120 then 120 else if x < 30 then 30 else x)
      = max 30 (min 120 x) := by
    intro x
    split_ifs <;> omega
  constructor
  · rw [nm_ndisc_start]
    simp only [h3, Option.isSome_none, Bool.false_eq_true, if_false]
    rw [solicit_ra_timeout]
    rw [hclamp]
  · intro st'
    rfl

/-- C9 witness: with 3 solicitations at 4-second intervals the first-RA
timeout is armed at `clamp (13, 30, 120) = 30` seconds. -/
theorem C9_witness :
    (1 : Int) ≤ 3 ∧ (1 : Int) ≤ 4 ∧
    (nm_ndisc_start ⟨.eui64, 0, 3, 4⟩ 0
        ⟨⟨[], [], [], [], []⟩, 0, none, -2147483648, none, none, none, 0⟩).ra_timeout_id
      = some 30 ∧
    ndisc_ra_timeout_cb ⟨⟨[], [], [], [], []⟩, 0, none, 0, some 30, none, none, 0⟩
      = (⟨⟨[], [], [], [], []⟩, 0, none, 0, none, none, none, 0⟩, [.ra_timeout]) := by
  have h := C9_start_timeout ⟨.eui64, 0, 3, 4⟩ 0
    ⟨⟨[], [], [], [], []⟩, 0, none, -2147483648, none, none, none, 0⟩
    (by decide) (by decide) rfl
  refine ⟨by decide, by decide, ?_, ?_⟩
  · simpa using h.1
  · exact h.2 ⟨⟨[], [], [], [], []⟩, 0, none, 0, some 30, none, none, 0⟩

theorem clean_gateways_ne (now : Nat) :
    ∀ (l : List NMNDiscGateway) (ne : Nat), ne ≤ G_MAXINT32 → (ne = G_MAXINT32 ∨ now < ne) →
    (clean_gateways now l ne).2.2 ≤ G_MAXINT32 ∧
    ((clean_gateways now l ne).2.2 = G_MAXINT32 ∨ now < (clean_gateways now l ne).2.2)
  | [], ne, hb, hinv => by simpa [clean_gateways] using ⟨hb, hinv⟩
  | item :: rest, ne, hb, hinv => by
    by_cases hinf : item.lifetime = G_MAXUINT32
    · simpa only [clean_gateways, if_pos hinf] using clean_gateways_ne now rest ne hb hinv
    · by_cases hexp : now ≥ item.timestamp + item.lifetime
      · simpa only [clean_gateways, if_neg hinf, if_pos hexp]
          using clean_gateways_ne now rest ne hb hinv
      · simp only [clean_gateways, if_neg hinf, if_neg hexp]
        by_cases hlt : ne > item.timestamp + item.lifetime
        · simp only [if_pos hlt]
          refine clean_gateways_ne now rest _ ?_ ?_ <;> unfold G_MAXINT32 at * <;> omega
        · simp only [if_neg hlt]
          exact clean_gateways_ne now rest ne hb hinv

theorem clean_addresses_ne (now : Nat) :
    ∀ (l : List NMNDiscAddress) (ne : Nat), ne ≤ G_MAXINT32 → (ne = G_MAXINT32 ∨ now < ne) →
    (clean_addresses now l ne).2.2 ≤ G_MAXINT32 ∧
    ((clean_addresses now l ne).2.2 = G_MAXINT32 ∨ now < (clean_addresses now l ne).2.2)
  | [], ne, hb, hinv => by simpa [clean_addresses] using ⟨hb, hinv⟩
  | item :: rest, ne, hb, hinv => by
    by_cases hinf : item.lifetime = G_MAXUINT32
    · simpa only [clean_addresses, if_pos hinf] using clean_addresses_ne now rest ne hb hinv
    · by_cases hexp : now ≥ item.timestamp + item.lifetime
      · simpa only [clean_addresses, if_neg hinf, if_pos hexp]
          using clean_addresses_ne now rest ne hb hinv
      · simp only [clean_addresses, if_neg hinf, if_neg hexp]
        by_cases hlt : ne > item.timestamp + item.lifetime
        · simp only [if_pos hlt]
          refine clean_addresses_ne now rest _ ?_ ?_ <;> unfold G_MAXINT32 at * <;> omega
        · simp only [if_neg hlt]
          exact clean_addresses_ne now rest ne hb hinv

theorem clean_routes_ne (now : Nat) :
    ∀ (l : List NMNDiscRoute) (ne : Nat), ne ≤ G_MAXINT32 → (ne = G_MAXINT32 ∨ now < ne) →
    (clean_routes now l ne).2.2 ≤ G_MAXINT32 ∧
    ((clean_routes now l ne).2.2 = G_MAXINT32 ∨ now < (clean_routes now l ne).2.2)
  | [], ne, hb, hinv => by simpa [clean_routes] using ⟨hb, hinv⟩
  | item :: rest, ne, hb, hinv => by
    by_cases hinf : item.lifetime = G_MAXUINT32
    · simpa only [clean_routes, if_pos hinf] using clean_routes_ne now rest ne hb hinv
    · by_cases hexp : now ≥ item.timestamp + item.lifetime
      · simpa only [clean_routes, if_neg hinf, if_pos hexp]
          using clean_routes_ne now rest ne hb hinv
      · simp only [clean_routes, if_neg hinf, if_neg hexp]
        by_cases hlt : ne > item.timestamp + item.lifetime
        · simp only [if_pos hlt]
          refine clean_routes_ne now rest _ ?_ ?_ <;> unfold G_MAXINT32 at * <;> omega
        · simp only [if_neg hlt]
          exact clean_routes_ne now rest ne hb hinv

theorem clean_dns_servers_ne (now : Nat) :
    ∀ (l : List NMNDiscDNSServer) (ne : Nat), ne ≤ G_MAXINT32 → (ne = G_MAXINT32 ∨ now < ne) →
    (clean_dns_servers now l ne).2.2.1 ≤ G_MAXINT32 ∧
    ((clean_dns_servers now l ne).2.2.1 = G_MAXINT32 ∨ now < (clean_dns_servers now l ne).2.2.1)
  | [], ne, hb, hinv => by simpa [clean_dns_servers] using ⟨hb, hinv⟩
  | item :: rest, ne, hb, hinv => by
    by_cases hinf : item.lifetime = G_MAXUINT32
    · simpa only [clean_dns_servers, if_pos hinf] using clean_dns_servers_ne now rest ne hb hinv
    · by_cases hexp : now ≥ item.timestamp + item.lifetime
      · simpa only [clean_dns_servers, if_neg hinf, if_pos hexp]
          using clean_dns_servers_ne now rest ne hb hinv
      · by_cases href : now ≥ item.timestamp + item.lifetime / 2
        · simpa only [clean_dns_servers, if_neg hinf, if_neg hexp, if_pos href]
            using clean_dns_servers_ne now rest ne hb hinv
        · simp only [clean_dns_servers, if_neg hinf, if_neg hexp, if_neg href]
          by_cases hlt : ne > item.timestamp + item.lifetime / 2
          · simp only [if_pos hlt]
            refine clean_dns_servers_ne now rest _ ?_ ?_ <;> unfold G_MAXINT32 at * <;> omega
          · simp only [if_neg hlt]
            exact clean_dns_servers_ne now rest ne hb hinv

theorem clean_dns_domains_ne (now : Nat) :
    ∀ (l : List NMNDiscDNSDomain) (ne : Nat), ne ≤ G_MAXINT32 → (ne = G_MAXINT32 ∨ now < ne) →
    (clean_dns_domains now l ne).2.2.1 ≤ G_MAXINT32 ∧
    ((clean_dns_domains now l ne).2.2.1 = G_MAXINT32 ∨ now < (clean_dns_domains now l ne).2.2.1)
  | [], ne, hb, hinv => by simpa [clean_dns_domains] using ⟨hb, hinv⟩
  | item :: rest, ne, hb, hinv => by
    by_cases hinf : item.lifetime = G_MAXUINT32
    · simpa only [clean_dns_domains, if_pos hinf] using clean_dns_domains_ne now rest ne hb hinv
    · by_cases hexp : now ≥ item.timestamp + item.lifetime
      · simpa only [clean_dns_domains, if_neg hinf, if_pos hexp]
          using clean_dns_domains_ne now rest ne hb hinv
      · by_cases href : now ≥ item.timestamp + item.lifetime / 2
        · simpa only [clean_dns_domains, if_neg hinf, if_neg hexp, if_pos href]
            using clean_dns_domains_ne now rest ne hb hinv
        · simp only [clean_dns_domains, if_neg hinf, if_neg hexp, if_neg href]
          by_cases hlt : ne > item.timestamp + item.lifetime / 2
          · simp only [if_pos hlt]
            refine clean_dns_domains_ne now rest _ ?_ ?_ <;> unfold G_MAXINT32 at * <;> omega
          · simp only [if_neg hlt]
            exact clean_dns_domains_ne now rest ne hb hinv

/-- C10: after the five clean passes of `check_timestamps`, a computed
next-event deadline different from the `never` sentinel `G_MAXINT32` is
strictly greater than `now`, so the `g_return_if_fail (nextevent > now)`
guard before re-arming the sweep timer never fails; this holds for every
collection state whose stored lifetimes are all non-zero. -/
theorem C10_nextevent (now changed0 : Nat) (rd : NMNDiscDataInternal)
    (hpos : rdataLifetimesPos rd) :
    (check_timestamps now changed0 rd).2.2.1 ≠ G_MAXINT32 →
    now < (check_timestamps now changed0 rd).2.2.1 := by
  intro hne
  have h1 := clean_gateways_ne now rd.gateways G_MAXINT32 le_rfl (Or.inl rfl)
  have h2 := clean_addresses_ne now rd.addresses _ h1.1 h1.2
  have h3 := clean_routes_ne now rd.routes _ h2.1 h2.2
  have h4 := clean_dns_servers_ne now rd.dns_servers _ h3.1 h3.2
  have h5 := clean_dns_domains_ne now rd.dns_domains _ h4.1 h4.2
  rcases h5.2 with h' | h'
  · exact absurd h' hne
  · exact h'

/-- C10 witness: the next-event positivity evaluated on a concrete collection
state at `now = 50`. -/
theorem C10_witness :
    rdataLifetimesPos ⟨[⟨⟨1, 1⟩, 0, 100, 3⟩], [], [], [], []⟩ ∧
    50 < (check_timestamps 50 0 ⟨[⟨⟨1, 1⟩, 0, 100, 3⟩], [], [], [], []⟩).2.2.1 := by
  have hpos : rdataLifetimesPos ⟨[⟨⟨1, 1⟩, 0, 100, 3⟩], [], [], [], []⟩ := by
    unfold rdataLifetimesPos
    decide
  exact ⟨hpos, C10_nextevent 50 0 ⟨[⟨⟨1, 1⟩, 0, 100, 3⟩], [], [], [], []⟩ hpos (by decide)⟩
